import Mathlib

/-!
C0VM: a shallow embedding of `execute` (src/c0vm.c).

The interpreter loop of `execute` is embedded as a one-step function `step`
on an explicit machine state, and `run` iterates it.

Conventions of the embedding.

* `int` is a mathematical integer kept in the range `[-2^31, 2^31)`; the
  arithmetic of the C code is followed by `wrap32`, the two's-complement
  wrap-around the C0VM is built with (`-fwrapv`).  `size_t` is a natural
  number below `2^64`, and `pc` arithmetic is reduced modulo `2^64`.
* A code array is a list of bytes; reading a byte reduces it modulo 256.
* The operand stack `S` is a list with the top of the stack first; the local
  variable array `V` is a list indexed from 0.
* Whatever C leaves undefined (popping an empty stack, reading outside an
  array, using freed memory, a failed `REQUIRES`) is the fault `undefined`.
* The functions `c0_arith_error`, `c0_memory_error`, `c0_assertion_failure` and
  `c0_user_error` end the process, as does a failed `assert`.
* The two operands of a comparison such as `pop_int(S) > pop_int(S)` are
  evaluated from left to right.
* The operand stacks, the arrays of locals and the frames are always
  allocated; only the requests of NEW and NEWARRAY go through the heap.
* The headers under `lib/` are not part of the sources; what the code uses
  from them is modelled from the specification and marked as such.
-/

namespace C0VM

/-! ## Values -/

/-- Modelled from the spec: the payload of a `void*` (lib/c0vm.h is missing).
It is `NULL`, an address of the heap, or the function pointer that
`create_funptr(native, index)` encodes (the spec's `FnPtr(kind, index)`). -/
inductive Ptr where
  | null
  | addr (a : Nat)
  | fn (native : Bool) (index : Nat)
  deriving DecidableEq, Repr

/-- Modelled from the spec: the type `c0_value` of lib/c0vm.h (missing), the
spec's `Int(i32)`, `Ptr(addr | null)` (with the function pointers, which the
code pushes and pops through `push_ptr` and `pop_ptr`) and
`TaggedPtr(addr, tag)`. -/
inductive c0_value where
  | int (i : Int)
  | ptr (p : Ptr)
  | tagged (p : Ptr) (tag : Nat)
  deriving DecidableEq, Repr

/-- Ways in which `execute` stops without a result. -/
inductive Fault where
  /-- The call `c0_arith_error(..)`. -/
  | arith_error
  /-- The call `c0_memory_error(..)`. -/
  | memory_error
  /-- The call `c0_assertion_failure(..)`. -/
  | assertion_failure
  /-- The call `c0_user_error(..)`. -/
  | user_error
  /-- The `default:` branch of the switch: "invalid opcode", `abort()`. -/
  | invalid_opcode
  /-- A failed `assert(..)`, or an allocation that `xmalloc`/`xcalloc` cannot serve. -/
  | abort
  /-- Behaviour that C leaves undefined. -/
  | undefined
  deriving DecidableEq, Repr

/-- A handler either yields a value or stops with a fault. -/
abbrev Exec (α : Type) := Except Fault α

/-- The value `INT_MIN` of limits.h. -/
def INT_MIN : Int := -2147483648

/-- The value `INT_MAX` of limits.h. -/
def INT_MAX : Int := 2147483647

/-- Range of the C type `int` (32 bits, two's complement). -/
def is_int32 (x : Int) : Prop := INT_MIN ≤ x ∧ x ≤ INT_MAX

instance (x : Int) : Decidable (is_int32 x) := by
  unfold is_int32; exact inferInstance

/-- Two's-complement reduction of an integer to the type `int`. -/
def wrap32 (x : Int) : Int := (x + 2147483648) % 4294967296 - 2147483648

/-- The cast `(int)(int8_t)b` of a byte. -/
def int8_of_byte (b : Nat) : Int := if b % 256 < 128 then (b % 256 : Nat) else (b % 256 : Nat) - 256

/-- The cast `(int16_t)tmp` of a `uint16_t`. -/
def int16_of_uint16 (u : Nat) : Int :=
  if u % 65536 < 32768 then (u % 65536 : Nat) else (u % 65536 : Nat) - 65536

/-- The `size_t` result of `pc + d` for an `int` d (conversion to `size_t`, then
addition modulo `2^64`). -/
def size_t_add (pc : Nat) (d : Int) : Nat := (((pc : Int) + d) % 18446744073709551616).toNat

/-- Modelled from the spec: `int2val` of lib/c0vm.h. -/
def int2val (x : Int) : c0_value := c0_value.int x

/-- Modelled from the spec: `val2int` of lib/c0vm.h; its argument must be an integer value. -/
def val2int : c0_value → Exec Int
  | c0_value.int i => pure i
  | _ => throw Fault.undefined

/-- Modelled from the spec: `ptr2val` of lib/c0vm.h. -/
def ptr2val (p : Ptr) : c0_value := c0_value.ptr p

/-- Modelled from the spec: `val2ptr` of lib/c0vm.h; its argument must be a pointer value. -/
def val2ptr : c0_value → Exec Ptr
  | c0_value.ptr p => pure p
  | _ => throw Fault.undefined

/-- Modelled from the spec: `tagged_ptr2val` of lib/c0vm.h. -/
def tagged_ptr2val (p : Ptr) (tag : Nat) : c0_value := c0_value.tagged p (tag % 65536)

/-- Modelled from the spec: `val2tagged_ptr` of lib/c0vm.h: the pointer of a tagged
value; a plain `NULL` has no tag and is returned as `NULL`. -/
def val2tagged_ptr : c0_value → Exec Ptr
  | c0_value.tagged p _ => pure p
  | c0_value.ptr Ptr.null => pure Ptr.null
  | _ => throw Fault.undefined

/-- Modelled from the spec: `val_equal` of lib/c0vm.h, equality of values within a variant. -/
def val_equal (v1 v2 : c0_value) : Bool := decide (v1 = v2)

/-- Modelled from the spec: `create_funptr` of lib/c0vm.h; its index parameter is a `uint16_t`. -/
def create_funptr (is_native : Bool) (index : Int) : Ptr :=
  Ptr.fn is_native (index % 65536).toNat

/-- Modelled from the spec: `funptr2index` of lib/c0vm.h. -/
def funptr2index : Ptr → Exec Nat
  | Ptr.fn _ index => pure index
  | _ => throw Fault.undefined

/-- Modelled from the spec: `is_native_funptr` of lib/c0vm.h. -/
def is_native_funptr : Ptr → Exec Bool
  | Ptr.fn native _ => pure native
  | _ => throw Fault.undefined

/-- Modelled from the spec: the all-zero `c0_value` that `xcalloc` leaves in every
slot of a fresh array of values. -/
def c0_zero : c0_value := c0_value.int 0

/-! ## The heap -/

/-- The struct `c0_array` of lib/c0vm.h. -/
structure c0_array where
  count : Int
  elt_size : Int
  elems : Ptr
  deriving DecidableEq, Repr

/-- A typed object stored at an address of the heap. -/
inductive Cell where
  | int (i : Int)
  | ptr (p : Ptr)
  | char (c : Int)
  | array (a : c0_array)
  | value (v : c0_value)
  | tagged (p : Ptr) (tag : Nat)
  deriving DecidableEq, Repr

/-- Size `sizeof(int)`. -/
def sizeof_int : Nat := 4

/-- Size `sizeof(void*)`. -/
def sizeof_ptr : Nat := 8

/-- Size `sizeof(c0_array)`. -/
def sizeof_c0_array : Nat := 16

/-- Size `sizeof(c0_value)`. -/
def sizeof_c0_value : Nat := 16

/-- Size `sizeof(c0_tagged_ptr)`. -/
def sizeof_c0_tagged_ptr : Nat := 16

/-- Number of bytes a stored object occupies. -/
def Cell.width : Cell → Nat
  | Cell.int _ => sizeof_int
  | Cell.ptr _ => sizeof_ptr
  | Cell.char _ => 1
  | Cell.array _ => sizeof_c0_array
  | Cell.value _ => sizeof_c0_value
  | Cell.tagged _ _ => sizeof_c0_tagged_ptr

/-- A region handed out by `xmalloc` (not zeroed) or `xcalloc` (zeroed). -/
structure Block where
  base : Nat
  size : Nat
  zeroed : Bool
  deriving DecidableEq, Repr

/-- The heap: the regions allocated so far, the next free address, and the
objects written so far, the most recent write first. -/
structure Heap where
  brk : Nat
  blocks : List Block
  cells : List (Nat × Cell)
  deriving DecidableEq, Repr

/-- Whether the bytes `[a, a + w)` lie inside one allocated region. -/
def Heap.in_block (h : Heap) (a w : Nat) : Option Block :=
  h.blocks.find? (fun b => decide (b.base ≤ a ∧ a + w ≤ b.base + b.size))

/-- The most recent write that overlaps the bytes `[a, a + w)`. -/
def Heap.last_write (h : Heap) (a w : Nat) : Option (Nat × Cell) :=
  h.cells.find? (fun e => decide (e.1 < a + w ∧ a < e.1 + e.2.width))

/-- The allocation behind `xmalloc(n)` and `xcalloc(nobj, size)` with `n = nobj * size`
bytes: a fresh non-null region, or `abort()` when the request cannot be served. -/
def Heap.alloc (h : Heap) (nbytes : Nat) (zeroed : Bool) : Exec (Ptr × Heap) :=
  if h.brk + nbytes < 18446744073709551616 then
    pure (Ptr.addr h.brk,
      { h with brk := h.brk + max nbytes 1,
               blocks := { base := h.brk, size := nbytes, zeroed := zeroed } :: h.blocks })
  else throw Fault.abort

/-- Read of an object of `w` bytes through the pointer `p`, which the caller has
already compared with `NULL`: the object last written there, or `zero` in a
zeroed region never written to. -/
def Heap.load (h : Heap) (p : Ptr) (w : Nat) (zero : Cell) : Exec Cell :=
  match p with
  | Ptr.addr a =>
    match h.in_block a w with
    | none => throw Fault.undefined
    | some b =>
      match h.last_write a w with
      | some (a', c) => if a' = a ∧ c.width = w then pure c else throw Fault.undefined
      | none => if b.zeroed then pure zero else throw Fault.undefined
  | _ => throw Fault.undefined

/-- Write of the object `c` through the pointer `p`. -/
def Heap.store (h : Heap) (p : Ptr) (c : Cell) : Exec Heap :=
  match p with
  | Ptr.addr a =>
    match h.in_block a c.width with
    | none => throw Fault.undefined
    | some _ => pure { h with cells := (a, c) :: h.cells }
  | _ => throw Fault.undefined

/-- The read `*a` of an `int`. -/
def Heap.load_int (h : Heap) (p : Ptr) : Exec Int := do
  match (← h.load p sizeof_int (Cell.int 0)) with
  | Cell.int i => pure i
  | _ => throw Fault.undefined

/-- The read `*a` of a `void*`. -/
def Heap.load_ptr (h : Heap) (p : Ptr) : Exec Ptr := do
  match (← h.load p sizeof_ptr (Cell.ptr Ptr.null)) with
  | Cell.ptr q => pure q
  | _ => throw Fault.undefined

/-- The read `*a` of a `char`. -/
def Heap.load_char (h : Heap) (p : Ptr) : Exec Int := do
  match (← h.load p 1 (Cell.char 0)) with
  | Cell.char c => pure c
  | _ => throw Fault.undefined

/-- The read of the header `*a` of an array. -/
def Heap.load_array (h : Heap) (p : Ptr) : Exec c0_array := do
  match (← h.load p sizeof_c0_array (Cell.array { count := 0, elt_size := 0, elems := Ptr.null })) with
  | Cell.array a => pure a
  | _ => throw Fault.undefined

/-- The read `*(c0_value*)a`. -/
def Heap.load_value (h : Heap) (p : Ptr) : Exec c0_value := do
  match (← h.load p sizeof_c0_value (Cell.value c0_zero)) with
  | Cell.value v => pure v
  | _ => throw Fault.undefined

/-- The read of the struct `*a` of a tagged pointer. -/
def Heap.load_tagged (h : Heap) (p : Ptr) : Exec (Ptr × Nat) := do
  match (← h.load p sizeof_c0_tagged_ptr (Cell.tagged Ptr.null 0)) with
  | Cell.tagged q t => pure (q, t)
  | _ => throw Fault.undefined

/-- The pointer with the 64-bit address `n`; the address 0 is `NULL`. -/
def Ptr.of_address (n : Nat) : Ptr := if n = 0 then Ptr.null else Ptr.addr n

/-- Pointer arithmetic `p + k` on a `char*`, for an `int` k: the address plus `k`
modulo `2^64`, computed without any test.  The address that `create_funptr`
gives a function pointer is not in the sources, so arithmetic on a function
pointer is left undefined. -/
def ptr_add (p : Ptr) (k : Int) : Exec Ptr :=
  match p with
  | Ptr.null => pure (Ptr.of_address (size_t_add 0 k))
  | Ptr.addr a => pure (Ptr.of_address (size_t_add a k))
  | Ptr.fn _ _ => throw Fault.undefined

/-! ## The program and the machine state -/

/-- The struct `function_info` of a bytecode file: `num_args` and `num_vars` are
`uint16_t`, `code` is the byte array of the function. -/
structure function_info where
  num_args : Nat
  num_vars : Nat
  code : List Nat
  deriving DecidableEq, Repr

/-- The struct `native_info` of a bytecode file. -/
structure native_info where
  num_args : Nat
  function_table_index : Nat
  deriving DecidableEq, Repr

/-- The struct `bc0_file`: the pools that `execute` reads. -/
structure bc0_file where
  int_pool : List Int
  string_pool : List Nat
  function_pool : List function_info
  native_pool : List native_info
  deriving DecidableEq, Repr

/-- Modelled from the spec: the table `native_function_table` of lib/c0vm_c0ffi.h
(missing): host functions from an argument vector to a value, which may write
to the heap. -/
abbrev NativeTable := Nat → List c0_value → Heap → c0_value × Heap

/-- The struct `frame_info`: the saved operand stack, code, pc and locals of a caller. -/
structure frame_info where
  S : List c0_value
  P : List Nat
  pc : Nat
  V : List c0_value
  deriving DecidableEq, Repr

/-- An entry of the call stack.  `F->S` and `F->V` are pointers: a frame pushed
for a call owns the caller's operand stack and locals (`frame`), while the frame
that INVOKEDYNAMIC pushes before it runs a native function points to the operand
stack and the locals that stay in use by the running function (`alias`), and
these are freed by the RETURN that pops it. -/
inductive Saved where
  | frame (F : frame_info)
  | alias (P : List Nat) (pc : Nat)
  deriving DecidableEq, Repr

/-- The variables of `execute`: `S`, `P`, `pc`, `V`, `callStack`, and the heap. -/
structure State where
  S : List c0_value
  P : List Nat
  pc : Nat
  V : List c0_value
  callStack : List Saved
  heap : Heap
  deriving DecidableEq, Repr

/-- What one turn of the loop of `execute` leads to. -/
inductive Outcome where
  /-- The loop goes on in the next state. -/
  | running (s : State)
  /-- The statement `return val2int(retval)`. -/
  | returned (r : Int)
  /-- The process stops without a result. -/
  | stopped (f : Fault)
  deriving DecidableEq, Repr

/-- Outcome of a handler that has no `return` statement. -/
def Outcome.of_exec : Exec State → Outcome
  | Except.ok s => Outcome.running s
  | Except.error f => Outcome.stopped f

/-- The statement `pc++`. -/
def State.pc_inc (s : State) : State := { s with pc := (s.pc + 1) % 18446744073709551616 }

/-- The statement `pc += d` for an `int` d. -/
def State.pc_add (s : State) (d : Int) : State := { s with pc := size_t_add s.pc d }

/-- The read `P[pc]` of a byte of the code. -/
def byte_at (P : List Nat) (pc : Nat) : Exec Nat :=
  match P[pc]? with
  | some b => pure (b % 256)
  | none => throw Fault.undefined

/-- The call `c0v_push(S, v)`. -/
def c0v_push (s : State) (v : c0_value) : State := { s with S := v :: s.S }

/-- The call `c0v_pop(S)`; the stack must not be empty. -/
def c0v_pop (s : State) : Exec (c0_value × State) :=
  match s.S with
  | [] => throw Fault.undefined
  | v :: S => pure (v, { s with S := S })

/-- The function `push_int`. -/
def push_int (s : State) (x : Int) : State := c0v_push s (int2val x)

/-- The function `pop_int`. -/
def pop_int (s : State) : Exec (Int × State) := do
  let (v, s) ← c0v_pop s
  let x ← val2int v
  pure (x, s)

/-- The function `push_ptr`. -/
def push_ptr (s : State) (x : Ptr) : State := c0v_push s (ptr2val x)

/-- The function `pop_ptr`. -/
def pop_ptr (s : State) : Exec (Ptr × State) := do
  let (v, s) ← c0v_pop s
  let x ← val2ptr v
  pure (x, s)

/-- The function `push_taggedptr`. -/
def push_taggedptr (s : State) (x : Ptr) (tag : Nat) : State := c0v_push s (tagged_ptr2val x tag)

/-- The function `pop_taggedptr`. -/
def pop_taggedptr (s : State) : Exec (Ptr × State) := do
  let (v, s) ← c0v_pop s
  let x ← val2tagged_ptr v
  pure (x, s)

/-- The element `pool[index]` of a pool of the bytecode file, for a signed index. -/
def pool_get {α : Type} (pool : List α) (index : Int) : Exec α :=
  if index < 0 then throw Fault.undefined
  else match pool[index.toNat]? with
    | some x => pure x
    | none => throw Fault.undefined

/-- The loop `for (int i = k - 1; i >= 0; i--) A[i] = c0v_pop(S);` on the array `A`
and the operand stack `S`: the array and the stack after the loop. -/
def pop_args : Nat → List c0_value → List c0_value → Exec (List c0_value × List c0_value)
  | 0, A, S => pure (A, S)
  | k + 1, A, S =>
    match S with
    | [] => throw Fault.undefined
    | v :: S' => if k < A.length then pop_args k (A.set k v) S' else throw Fault.undefined

/-- Address at which the model places `bc0->string_pool`. -/
def string_pool_addr : Nat := 4096

/-- The heap when `execute` starts: the string pool of the loaded file. -/
def initial_heap (bc0 : bc0_file) : Heap :=
  { brk := string_pool_addr + bc0.string_pool.length + 1,
    blocks := [{ base := string_pool_addr, size := bc0.string_pool.length, zeroed := false }],
    cells := (bc0.string_pool.enumFrom string_pool_addr).map
      (fun e => (e.1, Cell.char (int8_of_byte e.2))) }

/-! ## The handlers of the switch of `execute`

Each `exec_X` follows the statements of `case X:` in their order. -/

/-- The case `POP`. -/
def exec_POP (s : State) : Exec State := do
  let s := s.pc_inc
  let (_, s) ← c0v_pop s
  pure s

/-- The case `DUP`. -/
def exec_DUP (s : State) : Exec State := do
  let s := s.pc_inc
  let (v, s) ← c0v_pop s
  let s := c0v_push s v
  pure (c0v_push s v)

/-- The case `SWAP`. -/
def exec_SWAP (s : State) : Exec State := do
  let s := s.pc_inc
  let (v1, s) ← c0v_pop s
  let (v2, s) ← c0v_pop s
  let s := c0v_push s v1
  pure (c0v_push s v2)

/-- The case `RETURN`: pop the return value, `assert` that the operand stack is
empty, free `S` and `V`; with an empty call stack `return val2int(retval)`,
otherwise restore the frame on top of the call stack and push the return value
on the restored operand stack (a freed stack when the frame is an alias). -/
def exec_RETURN (s : State) : Outcome :=
  match s.S with
  | [] => Outcome.stopped Fault.undefined
  | retval :: S =>
    if S ≠ [] then Outcome.stopped Fault.abort
    else
      match s.callStack with
      | [] =>
        match val2int retval with
        | Except.ok r => Outcome.returned r
        | Except.error f => Outcome.stopped f
      | Saved.frame F :: callStack =>
        Outcome.running
          { S := retval :: F.S, P := F.P, pc := F.pc, V := F.V, callStack := callStack,
            heap := s.heap }
      | Saved.alias _ _ :: _ => Outcome.stopped Fault.undefined

/-- The case `IADD`. -/
def exec_IADD (s : State) : Exec State := do
  let s := s.pc_inc
  let (v1, s) ← pop_int s
  let (v2, s) ← pop_int s
  pure (push_int s (wrap32 (v2 + v1)))

/-- The case `ISUB`. -/
def exec_ISUB (s : State) : Exec State := do
  let s := s.pc_inc
  let (v1, s) ← pop_int s
  let (v2, s) ← pop_int s
  pure (push_int s (wrap32 (v2 - v1)))

/-- The case `IMUL`. -/
def exec_IMUL (s : State) : Exec State := do
  let s := s.pc_inc
  let (v1, s) ← pop_int s
  let (v2, s) ← pop_int s
  pure (push_int s (wrap32 (v2 * v1)))

/-- The case `IDIV`; the C operator `/` truncates toward zero. -/
def exec_IDIV (s : State) : Exec State := do
  let s := s.pc_inc
  let (v1, s) ← pop_int s
  let (v2, s) ← pop_int s
  if v1 = 0 then throw Fault.arith_error
  else if v2 = INT_MIN ∧ v1 = -1 then throw Fault.arith_error
  else pure (push_int s (Int.tdiv v2 v1))

/-- The case `IREM`; the C operator `%` is the remainder of the truncated division. -/
def exec_IREM (s : State) : Exec State := do
  let s := s.pc_inc
  let (v1, s) ← pop_int s
  let (v2, s) ← pop_int s
  if v1 = 0 then throw Fault.arith_error
  else if v2 = INT_MIN ∧ v1 = -1 then throw Fault.arith_error
  else pure (push_int s (Int.tmod v2 v1))

/-- The case `IAND`. -/
def exec_IAND (s : State) : Exec State := do
  let s := s.pc_inc
  let (v1, s) ← pop_int s
  let (v2, s) ← pop_int s
  pure (push_int s (Int.land v2 v1))

/-- The case `IOR`. -/
def exec_IOR (s : State) : Exec State := do
  let s := s.pc_inc
  let (v1, s) ← pop_int s
  let (v2, s) ← pop_int s
  pure (push_int s (Int.lor v2 v1))

/-- The case `IXOR`. -/
def exec_IXOR (s : State) : Exec State := do
  let s := s.pc_inc
  let (v1, s) ← pop_int s
  let (v2, s) ← pop_int s
  pure (push_int s (Int.xor v2 v1))

/-- The case `ISHR`; `>>` on a signed `int` is the arithmetic shift. -/
def exec_ISHR (s : State) : Exec State := do
  let s := s.pc_inc
  let (v1, s) ← pop_int s
  let (v2, s) ← pop_int s
  if v1 < 0 then throw Fault.arith_error
  else if v1 ≥ 32 then throw Fault.arith_error
  else pure (push_int s (v2 >>> v1.toNat))

/-- The case `ISHL`; `<<` keeps the low 32 bits of the shifted word. -/
def exec_ISHL (s : State) : Exec State := do
  let s := s.pc_inc
  let (v1, s) ← pop_int s
  let (v2, s) ← pop_int s
  if v1 < 0 then throw Fault.arith_error
  else if v1 ≥ 32 then throw Fault.arith_error
  else pure (push_int s (wrap32 (v2 * 2 ^ v1.toNat)))

/-- The case `BIPUSH`. -/
def exec_BIPUSH (s : State) : Exec State := do
  let s := s.pc_inc
  let b ← byte_at s.P s.pc
  let s := push_int s (int8_of_byte b)
  pure s.pc_inc

/-- The case `ILDC`. -/
def exec_ILDC (bc0 : bc0_file) (s : State) : Exec State := do
  let s := s.pc_inc
  let index := (← byte_at s.P s.pc) <<< 8
  let s := s.pc_inc
  let index := index ||| (← byte_at s.P s.pc)
  let x ← pool_get bc0.int_pool index
  let s := push_int s x
  pure s.pc_inc

/-- The case `ALDC`. -/
def exec_ALDC (s : State) : Exec State := do
  let s := s.pc_inc
  let index := (← byte_at s.P s.pc) <<< 8
  let s := s.pc_inc
  let index := index ||| (← byte_at s.P s.pc)
  let s := push_ptr s (Ptr.addr (string_pool_addr + index))
  pure s.pc_inc

/-- The case `ACONST_NULL`. -/
def exec_ACONST_NULL (s : State) : Exec State := do
  let s := s.pc_inc
  pure (push_ptr s Ptr.null)

/-- The case `VLOAD`. -/
def exec_VLOAD (s : State) : Exec State := do
  let s := s.pc_inc
  let i ← byte_at s.P s.pc
  match s.V[i]? with
  | none => throw Fault.undefined
  | some v =>
    let s := c0v_push s v
    pure s.pc_inc

/-- The case `VSTORE`. -/
def exec_VSTORE (s : State) : Exec State := do
  let s := s.pc_inc
  let i ← byte_at s.P s.pc
  let (v, s) ← c0v_pop s
  if i < s.V.length then
    let s := { s with V := s.V.set i v }
    pure s.pc_inc
  else throw Fault.undefined

/-- The case `ATHROW`. -/
def exec_ATHROW (s : State) : Exec State := do
  let s := s.pc_inc
  let (_, _) ← pop_ptr s
  throw Fault.user_error

/-- The case `ASSERT`. -/
def exec_ASSERT (s : State) : Exec State := do
  let s := s.pc_inc
  let (_, s) ← pop_ptr s
  let (x, s) ← pop_int s
  if x = 0 then throw Fault.assertion_failure
  else pure s

/-- The case `NOP`. -/
def exec_NOP (s : State) : Exec State := pure s.pc_inc

/-- The taken branch of the six conditional jumps, entered with `pc` on the
first byte of the immediate: a `uint32_t tmp`, `int32_t index = (int32_t)tmp`,
`pc += index - 2`. -/
def branch_taken (s : State) : Exec State := do
  let tmp := (← byte_at s.P s.pc) <<< 8
  let s := s.pc_inc
  let tmp := tmp ||| (← byte_at s.P s.pc)
  let index : Int := (tmp : Nat)
  pure (s.pc_add (index - 2))

/-- The case `IF_CMPEQ`. -/
def exec_IF_CMPEQ (s : State) : Exec State := do
  let s := s.pc_inc
  let (a, s) ← c0v_pop s
  let (b, s) ← c0v_pop s
  if val_equal a b then branch_taken s
  else pure (s.pc_add 2)

/-- The case `IF_CMPNE`. -/
def exec_IF_CMPNE (s : State) : Exec State := do
  let s := s.pc_inc
  let (a, s) ← c0v_pop s
  let (b, s) ← c0v_pop s
  if !val_equal a b then branch_taken s
  else pure (s.pc_add 2)

/-- The case `IF_ICMPLT`: the condition is `pop_int(S) > pop_int(S)`, the left
operand being popped first. -/
def exec_IF_ICMPLT (s : State) : Exec State := do
  let s := s.pc_inc
  let (a, s) ← pop_int s
  let (b, s) ← pop_int s
  if a > b then branch_taken s
  else pure (s.pc_add 2)

/-- The case `IF_ICMPGE`: the condition is `pop_int(S) <= pop_int(S)`. -/
def exec_IF_ICMPGE (s : State) : Exec State := do
  let s := s.pc_inc
  let (a, s) ← pop_int s
  let (b, s) ← pop_int s
  if a ≤ b then branch_taken s
  else pure (s.pc_add 2)

/-- The case `IF_ICMPGT`: the condition is `pop_int(S) < pop_int(S)`. -/
def exec_IF_ICMPGT (s : State) : Exec State := do
  let s := s.pc_inc
  let (a, s) ← pop_int s
  let (b, s) ← pop_int s
  if a < b then branch_taken s
  else pure (s.pc_add 2)

/-- The case `IF_ICMPLE`: the condition is `pop_int(S) >= pop_int(S)`. -/
def exec_IF_ICMPLE (s : State) : Exec State := do
  let s := s.pc_inc
  let (a, s) ← pop_int s
  let (b, s) ← pop_int s
  if a ≥ b then branch_taken s
  else pure (s.pc_add 2)

/-- The two immediate bytes read into a `uint16_t tmp`, entered with `pc` on the
first of them and left with `pc` on the second. -/
def read_uint16 (s : State) : Exec (Nat × State) := do
  let tmp := ((← byte_at s.P s.pc) <<< 8) % 65536
  let s := s.pc_inc
  let tmp := tmp ||| (← byte_at s.P s.pc)
  pure (tmp, s)

/-- The case `GOTO`: a `uint16_t tmp`, `int16_t index = (int16_t)tmp`, `pc += index - 2`. -/
def exec_GOTO (s : State) : Exec State := do
  let s := s.pc_inc
  let (tmp, s) ← read_uint16 s
  let index := int16_of_uint16 tmp
  pure (s.pc_add (index - 2))

/-- The case `INVOKESTATIC`.  The frame holds the pointer `S`, so the operand
stack it saves is the caller's stack as the argument loop leaves it. -/
def exec_INVOKESTATIC (bc0 : bc0_file) (s : State) : Exec State := do
  let s := s.pc_inc
  let (tmp, s) ← read_uint16 s
  let index := int16_of_uint16 tmp
  let s := s.pc_inc
  let f ← pool_get bc0.function_pool index
  let num_vars := f.num_vars
  let num_args := f.num_args
  let V := List.replicate num_vars c0_zero
  let (V, S) ← pop_args num_args V s.S
  pure { S := [], P := f.code, pc := 0, V := V,
         callStack := Saved.frame { S := S, P := s.P, pc := s.pc, V := s.V } :: s.callStack,
         heap := s.heap }

/-- The case `INVOKENATIVE`. -/
def exec_INVOKENATIVE (bc0 : bc0_file) (nt : NativeTable) (s : State) : Exec State := do
  let s := s.pc_inc
  let (tmp, s) ← read_uint16 s
  let index := int16_of_uint16 tmp
  let f ← pool_get bc0.native_pool index
  let num_args := f.num_args
  let A := List.replicate num_args c0_zero
  let (A, S) ← pop_args num_args A s.S
  let f_index := f.function_table_index
  let (res, heap) := nt f_index A s.heap
  let s := c0v_push { s with S := S, heap := heap } res
  pure s.pc_inc

/-- The case `NEW`: the request is `xmalloc(sizeof(s))` for the `int s`. -/
def exec_NEW (s : State) : Exec State := do
  let s := s.pc_inc
  let _ ← byte_at s.P s.pc
  let (ptr, heap) ← s.heap.alloc sizeof_int false
  let s := push_ptr { s with heap := heap } ptr
  pure s.pc_inc

/-- The case `IMLOAD`. -/
def exec_IMLOAD (s : State) : Exec State := do
  let (a, s) ← pop_ptr s
  if a = Ptr.null then throw Fault.memory_error
  let x ← s.heap.load_int a
  let s := push_int s x
  pure s.pc_inc

/-- The case `IMSTORE`. -/
def exec_IMSTORE (s : State) : Exec State := do
  let (x, s) ← pop_int s
  let (a, s) ← pop_ptr s
  if a = Ptr.null then throw Fault.memory_error
  let heap ← s.heap.store a (Cell.int x)
  let s := { s with heap := heap }
  pure s.pc_inc

/-- The case `AMLOAD`. -/
def exec_AMLOAD (s : State) : Exec State := do
  let (a, s) ← pop_ptr s
  if a = Ptr.null then throw Fault.memory_error
  let b ← s.heap.load_ptr a
  let s := push_ptr s b
  pure s.pc_inc

/-- The case `AMSTORE`. -/
def exec_AMSTORE (s : State) : Exec State := do
  let (b, s) ← pop_ptr s
  let (a, s) ← pop_ptr s
  if a = Ptr.null then throw Fault.memory_error
  let heap ← s.heap.store a (Cell.ptr b)
  let s := { s with heap := heap }
  pure s.pc_inc

/-- The case `CMLOAD`. -/
def exec_CMLOAD (s : State) : Exec State := do
  let (a, s) ← pop_ptr s
  if a = Ptr.null then throw Fault.memory_error
  let x ← s.heap.load_char a
  let s := push_int s x
  pure s.pc_inc

/-- The case `CMSTORE`. -/
def exec_CMSTORE (s : State) : Exec State := do
  let (x, s) ← pop_int s
  let (a, s) ← pop_ptr s
  if a = Ptr.null then throw Fault.memory_error
  let heap ← s.heap.store a (Cell.char (Int.land x 127))
  let s := { s with heap := heap }
  pure s.pc_inc

/-- The case `AADDF`. -/
def exec_AADDF (s : State) : Exec State := do
  let s := s.pc_inc
  let f ← byte_at s.P s.pc
  let (a, s) ← pop_ptr s
  if a = Ptr.null then throw Fault.memory_error
  let r ← ptr_add a (f : Nat)
  let s := push_ptr s r
  pure s.pc_inc

/-- The conversion of an `int` to `size_t`. -/
def size_t_of_int (n : Int) : Nat := (n % 18446744073709551616).toNat

/-- The case `NEWARRAY`: the header comes from `xmalloc(sizeof(c0_array))`, the
elements from `xcalloc(sizeof(void*), n)`. -/
def exec_NEWARRAY (s : State) : Exec State := do
  let s := s.pc_inc
  let elt_size := int8_of_byte (← byte_at s.P s.pc)
  let (n, s) ← pop_int s
  let (a, heap) ← s.heap.alloc sizeof_c0_array false
  let (elems, heap) ← heap.alloc (sizeof_ptr * size_t_of_int n) true
  let heap ← heap.store a (Cell.array { count := n, elt_size := elt_size, elems := elems })
  let s := push_ptr { s with heap := heap } a
  pure s.pc_inc

/-- The case `ARRAYLENGTH`. -/
def exec_ARRAYLENGTH (s : State) : Exec State := do
  let (a, s) ← pop_ptr s
  if a = Ptr.null then throw Fault.memory_error
  let arr ← s.heap.load_array a
  let s := push_int s arr.count
  pure s.pc_inc

/-- The case `AADDS`. -/
def exec_AADDS (s : State) : Exec State := do
  let (i, s) ← pop_int s
  let (a, s) ← pop_ptr s
  if a = Ptr.null then throw Fault.memory_error
  let arr ← s.heap.load_array a
  if i < 0 ∨ i ≥ arr.count then throw Fault.memory_error
  let res ← ptr_add arr.elems (wrap32 (arr.elt_size * i))
  let s := push_ptr s res
  pure s.pc_inc

/-- The case `CHECKTAG`. -/
def exec_CHECKTAG (s : State) : Exec State := do
  let s := s.pc_inc
  let (tag, s) ← read_uint16 s
  let s := s.pc_inc
  let (a, s) ← pop_taggedptr s
  if a = Ptr.null then throw Fault.memory_error
  else
    let (_, t) ← s.heap.load_tagged a
    if t ≠ tag then throw Fault.memory_error
    else
      let res := tagged_ptr2val a tag
      let s := c0v_push s res
      pure s.pc_inc

/-- The case `HASTAG`. -/
def exec_HASTAG (s : State) : Exec State := do
  let s := s.pc_inc
  let (tag, s) ← read_uint16 s
  let s := s.pc_inc
  let (a, s) ← pop_taggedptr s
  if a = Ptr.null then
    let s := push_int s 0
    pure s.pc_inc
  else
    let (_, t) ← s.heap.load_tagged a
    if t ≠ tag then
      let s := push_int s 0
      pure s.pc_inc
    else
      let s := push_int s 1
      pure s.pc_inc

/-- The case `ADDTAG`: the popped pointer is read as a `c0_value*`, the value it
points to is turned into a tagged pointer `res`, and `res->tag` is written. -/
def exec_ADDTAG (s : State) : Exec State := do
  let s := s.pc_inc
  let (tag, s) ← read_uint16 s
  let s := s.pc_inc
  let (a, s) ← pop_ptr s
  let res ← val2tagged_ptr (← s.heap.load_value a)
  let (p, _) ← s.heap.load_tagged res
  let heap ← s.heap.store res (Cell.tagged p tag)
  let s := push_taggedptr { s with heap := heap } res tag
  pure s.pc_inc

/-- The case `ADDROF_STATIC`. -/
def exec_ADDROF_STATIC (s : State) : Exec State := do
  let s := s.pc_inc
  let (tmp, s) ← read_uint16 s
  let index := int16_of_uint16 tmp
  let s := s.pc_inc
  let fn := create_funptr false index
  let s := push_ptr s fn
  pure s.pc_inc

/-- The case `ADDROF_NATIVE`. -/
def exec_ADDROF_NATIVE (s : State) : Exec State := do
  let s := s.pc_inc
  let (tmp, s) ← read_uint16 s
  let index := int16_of_uint16 tmp
  let s := s.pc_inc
  let fn := create_funptr true index
  let s := push_ptr s fn
  pure s.pc_inc

/-- The case `INVOKEDYNAMIC`.  A frame with the current `S`, `P`, `pc` and `V` is
pushed on the call stack first, in both branches.  In the native branch the
operand stack and the locals stay in use, so the frame is an alias; in the
other branch the frame owns the caller's stack as the argument loop leaves it. -/
def exec_INVOKEDYNAMIC (bc0 : bc0_file) (nt : NativeTable) (s : State) : Exec State := do
  let F_P := s.P
  let F_pc := s.pc
  let F_V := s.V
  let (f, s) ← pop_ptr s
  let index := int16_of_uint16 (← funptr2index f)
  if (← is_native_funptr f) then
    let fn ← pool_get bc0.native_pool index
    let num_args := fn.num_args
    let A := List.replicate num_args c0_zero
    let (A, S) ← pop_args num_args A s.S
    let f_index := fn.function_table_index
    let (res, heap) := nt f_index A s.heap
    let s := c0v_push { s with S := S, heap := heap,
                               callStack := Saved.alias F_P F_pc :: s.callStack } res
    pure s.pc_inc
  else
    let f ← pool_get bc0.function_pool index
    let num_vars := f.num_vars
    let num_args := f.num_args
    let V := List.replicate num_vars c0_zero
    let (V, S) ← pop_args num_args V s.S
    pure { S := [], P := f.code, pc := 0, V := V,
           callStack := Saved.frame { S := S, P := F_P, pc := F_pc, V := F_V } :: s.callStack,
           heap := s.heap }

/-! ## The dispatch -/

/-- The instructions that the switch of `execute` has a case for. -/
inductive Opcode where
  | NOP | BIPUSH | ILDC | ALDC | ACONST_NULL | VLOAD | VSTORE
  | IADD | ISUB | IMUL | IDIV | IREM | IAND | IOR | IXOR | ISHL | ISHR
  | IF_CMPEQ | IF_CMPNE | IF_ICMPLT | IF_ICMPGE | IF_ICMPGT | IF_ICMPLE | GOTO
  | ATHROW | ASSERT | INVOKESTATIC | INVOKENATIVE
  | NEW | NEWARRAY | ARRAYLENGTH
  | IMLOAD | IMSTORE | AMLOAD | AMSTORE | CMLOAD | CMSTORE | AADDF | AADDS
  | POP | DUP | SWAP | RETURN
  | CHECKTAG | HASTAG | ADDTAG | ADDROF_STATIC | ADDROF_NATIVE | INVOKEDYNAMIC
  deriving DecidableEq, Repr

/-- Modelled from the spec: the opcode bytes (the enumeration of lib/c0vm.h is
missing), as given by the opcode table of the spec. -/
def decode (b : Nat) : Option Opcode :=
  match b with
  | 0x00 => some Opcode.NOP
  | 0x10 => some Opcode.BIPUSH
  | 0x13 => some Opcode.ILDC
  | 0x14 => some Opcode.ALDC
  | 0x01 => some Opcode.ACONST_NULL
  | 0x15 => some Opcode.VLOAD
  | 0x36 => some Opcode.VSTORE
  | 0x60 => some Opcode.IADD
  | 0x64 => some Opcode.ISUB
  | 0x68 => some Opcode.IMUL
  | 0x6C => some Opcode.IDIV
  | 0x70 => some Opcode.IREM
  | 0x7E => some Opcode.IAND
  | 0x80 => some Opcode.IOR
  | 0x82 => some Opcode.IXOR
  | 0x78 => some Opcode.ISHL
  | 0x7A => some Opcode.ISHR
  | 0x9F => some Opcode.IF_CMPEQ
  | 0xA0 => some Opcode.IF_CMPNE
  | 0xA1 => some Opcode.IF_ICMPLT
  | 0xA2 => some Opcode.IF_ICMPGE
  | 0xA3 => some Opcode.IF_ICMPGT
  | 0xA4 => some Opcode.IF_ICMPLE
  | 0xA7 => some Opcode.GOTO
  | 0xBF => some Opcode.ATHROW
  | 0xCF => some Opcode.ASSERT
  | 0xB8 => some Opcode.INVOKESTATIC
  | 0xB7 => some Opcode.INVOKENATIVE
  | 0xBB => some Opcode.NEW
  | 0xBC => some Opcode.NEWARRAY
  | 0xBE => some Opcode.ARRAYLENGTH
  | 0x2E => some Opcode.IMLOAD
  | 0x4E => some Opcode.IMSTORE
  | 0x2F => some Opcode.AMLOAD
  | 0x4F => some Opcode.AMSTORE
  | 0x34 => some Opcode.CMLOAD
  | 0x55 => some Opcode.CMSTORE
  | 0x62 => some Opcode.AADDF
  | 0x63 => some Opcode.AADDS
  | 0x57 => some Opcode.POP
  | 0x59 => some Opcode.DUP
  | 0x5F => some Opcode.SWAP
  | 0xB0 => some Opcode.RETURN
  | 0xC0 => some Opcode.CHECKTAG
  | 0xC1 => some Opcode.HASTAG
  | 0xC2 => some Opcode.ADDTAG
  | 0xCA => some Opcode.ADDROF_STATIC
  | 0xCB => some Opcode.ADDROF_NATIVE
  | 0xB6 => some Opcode.INVOKEDYNAMIC
  | _ => none

/-- The body of the case that the switch selects for an instruction. -/
def exec_op (bc0 : bc0_file) (nt : NativeTable) (op : Opcode) (s : State) : Outcome :=
  match op with
  | Opcode.RETURN => exec_RETURN s
  | Opcode.POP => Outcome.of_exec (exec_POP s)
  | Opcode.DUP => Outcome.of_exec (exec_DUP s)
  | Opcode.SWAP => Outcome.of_exec (exec_SWAP s)
  | Opcode.IADD => Outcome.of_exec (exec_IADD s)
  | Opcode.ISUB => Outcome.of_exec (exec_ISUB s)
  | Opcode.IMUL => Outcome.of_exec (exec_IMUL s)
  | Opcode.IDIV => Outcome.of_exec (exec_IDIV s)
  | Opcode.IREM => Outcome.of_exec (exec_IREM s)
  | Opcode.IAND => Outcome.of_exec (exec_IAND s)
  | Opcode.IOR => Outcome.of_exec (exec_IOR s)
  | Opcode.IXOR => Outcome.of_exec (exec_IXOR s)
  | Opcode.ISHR => Outcome.of_exec (exec_ISHR s)
  | Opcode.ISHL => Outcome.of_exec (exec_ISHL s)
  | Opcode.BIPUSH => Outcome.of_exec (exec_BIPUSH s)
  | Opcode.ILDC => Outcome.of_exec (exec_ILDC bc0 s)
  | Opcode.ALDC => Outcome.of_exec (exec_ALDC s)
  | Opcode.ACONST_NULL => Outcome.of_exec (exec_ACONST_NULL s)
  | Opcode.VLOAD => Outcome.of_exec (exec_VLOAD s)
  | Opcode.VSTORE => Outcome.of_exec (exec_VSTORE s)
  | Opcode.ATHROW => Outcome.of_exec (exec_ATHROW s)
  | Opcode.ASSERT => Outcome.of_exec (exec_ASSERT s)
  | Opcode.NOP => Outcome.of_exec (exec_NOP s)
  | Opcode.IF_CMPEQ => Outcome.of_exec (exec_IF_CMPEQ s)
  | Opcode.IF_CMPNE => Outcome.of_exec (exec_IF_CMPNE s)
  | Opcode.IF_ICMPLT => Outcome.of_exec (exec_IF_ICMPLT s)
  | Opcode.IF_ICMPGE => Outcome.of_exec (exec_IF_ICMPGE s)
  | Opcode.IF_ICMPGT => Outcome.of_exec (exec_IF_ICMPGT s)
  | Opcode.IF_ICMPLE => Outcome.of_exec (exec_IF_ICMPLE s)
  | Opcode.GOTO => Outcome.of_exec (exec_GOTO s)
  | Opcode.INVOKESTATIC => Outcome.of_exec (exec_INVOKESTATIC bc0 s)
  | Opcode.INVOKENATIVE => Outcome.of_exec (exec_INVOKENATIVE bc0 nt s)
  | Opcode.NEW => Outcome.of_exec (exec_NEW s)
  | Opcode.IMLOAD => Outcome.of_exec (exec_IMLOAD s)
  | Opcode.IMSTORE => Outcome.of_exec (exec_IMSTORE s)
  | Opcode.AMLOAD => Outcome.of_exec (exec_AMLOAD s)
  | Opcode.AMSTORE => Outcome.of_exec (exec_AMSTORE s)
  | Opcode.CMLOAD => Outcome.of_exec (exec_CMLOAD s)
  | Opcode.CMSTORE => Outcome.of_exec (exec_CMSTORE s)
  | Opcode.AADDF => Outcome.of_exec (exec_AADDF s)
  | Opcode.NEWARRAY => Outcome.of_exec (exec_NEWARRAY s)
  | Opcode.ARRAYLENGTH => Outcome.of_exec (exec_ARRAYLENGTH s)
  | Opcode.AADDS => Outcome.of_exec (exec_AADDS s)
  | Opcode.CHECKTAG => Outcome.of_exec (exec_CHECKTAG s)
  | Opcode.HASTAG => Outcome.of_exec (exec_HASTAG s)
  | Opcode.ADDTAG => Outcome.of_exec (exec_ADDTAG s)
  | Opcode.ADDROF_STATIC => Outcome.of_exec (exec_ADDROF_STATIC s)
  | Opcode.ADDROF_NATIVE => Outcome.of_exec (exec_ADDROF_NATIVE s)
  | Opcode.INVOKEDYNAMIC => Outcome.of_exec (exec_INVOKEDYNAMIC bc0 nt s)

/-- The instruction at `P[pc]`, when the byte is in the code and has a case. -/
def opcode_at (s : State) : Option Opcode :=
  match byte_at s.P s.pc with
  | Except.ok b => decode b
  | Except.error _ => none

/-- One turn of the loop `while (true) { switch (P[pc]) { .. } }`. -/
def step (bc0 : bc0_file) (nt : NativeTable) (s : State) : Outcome :=
  match byte_at s.P s.pc with
  | Except.error f => Outcome.stopped f
  | Except.ok b =>
    match decode b with
    | none => Outcome.stopped Fault.invalid_opcode
    | some op => exec_op bc0 nt op s

/-- The loop of `execute`, for at most `fuel` turns. -/
def run (bc0 : bc0_file) (nt : NativeTable) : Nat → State → Outcome
  | 0, s => Outcome.running s
  | fuel + 1, s =>
    match step bc0 nt s with
    | Outcome.running s' => run bc0 nt fuel s'
    | o => o

/-- The variables of `execute` when the loop is entered. -/
def initial_state (bc0 : bc0_file) : Exec State := do
  let f ← pool_get bc0.function_pool 0
  pure { S := [], P := f.code, pc := 0, V := List.replicate f.num_vars c0_zero,
         callStack := [], heap := initial_heap bc0 }

/-- The function `execute`, its loop bounded by `fuel` turns. -/
def execute (bc0 : bc0_file) (nt : NativeTable) (fuel : Nat) : Outcome :=
  match initial_state bc0 with
  | Except.error f => Outcome.stopped f
  | Except.ok s => run bc0 nt fuel s

/-- A host table whose functions all return the integer 0. -/
def no_natives : NativeTable := fun _ _ h => (c0_value.int 0, h)

/-! ## Vocabulary of the statements -/

/-- The claim's "reduced modulo 2^32 to a signed 32-bit value": `r` is the value
of type `int` that differs from `z` by a multiple of `2^32`. -/
def reduces_mod32 (z r : Int) : Prop := is_int32 r ∧ (4294967296 : Int) ∣ (r - z)

/-- The claim's "quotient truncated toward zero": the quotient of the absolute
values, with the sign of `x` times the sign of `y`. -/
def trunc_quot (x y : Int) : Int := Int.sign x * Int.sign y * ((x.natAbs / y.natAbs : Nat) : Int)

/-- The claim's "remainder with the sign of x": the remainder of the absolute
values, with the sign of `x`. -/
def trunc_rem (x y : Int) : Int := Int.sign x * ((x.natAbs % y.natAbs : Nat) : Int)

/-- The state after an instruction of one byte has replaced the two values on top
of the operand stack of `s` by the integer `r`: the stack below them is `rest`,
`pc` is one further, and nothing else differs from `s`. -/
def after_binop (s : State) (r : Int) (rest : List c0_value) : State :=
  { s with S := c0_value.int r :: rest, pc := s.pc + 1 }

/-! ## Concrete programs and states -/

/-- A bytecode file with one function that has no arguments and no variables. -/
def single_function (code : List Nat) : bc0_file :=
  { int_pool := [], string_pool := [], native_pool := [],
    function_pool := [{ num_args := 0, num_vars := 0, code := code }] }

/-- Scenario S1 of the spec: `BIPUSH 3, BIPUSH 4, IADD, RETURN`. -/
def prog_S1 : bc0_file := single_function [0x10, 3, 0x10, 4, 0x60, 0xB0]

/-- The state of `prog_S1` in front of its `IADD`. -/
def state_S1_iadd : State :=
  { S := [c0_value.int 4, c0_value.int 3], P := [0x10, 3, 0x10, 4, 0x60, 0xB0], pc := 4, V := [],
    callStack := [], heap := initial_heap prog_S1 }

/-- Scenario S3 of the spec: `BIPUSH 1, BIPUSH 0, IDIV, RETURN`. -/
def prog_S3 : bc0_file := single_function [0x10, 1, 0x10, 0, 0x6C, 0xB0]

/-- The state of `prog_S3` in front of its `IDIV`. -/
def state_S3_idiv : State :=
  { S := [c0_value.int 0, c0_value.int 1], P := [0x10, 1, 0x10, 0, 0x6C, 0xB0], pc := 4, V := [],
    callStack := [], heap := initial_heap prog_S3 }

/-- High byte of the big-endian two's-complement encoding of the signed 16-bit `d`. -/
def i16_hi (d : Int) : Nat := (d % 65536).toNat / 256

/-- Low byte of the big-endian two's-complement encoding of the signed 16-bit `d`. -/
def i16_lo (d : Int) : Nat := (d % 65536).toNat % 256

/-- Scenario S2 of the spec: `BIPUSH 0xFF, BIPUSH 0x01, IF_ICMPLT +7, BIPUSH 0, RETURN,
BIPUSH 1, RETURN`. -/
def prog_S2 : bc0_file :=
  single_function [0x10, 0xFF, 0x10, 0x01, 0xA1, 0x00, 0x07, 0x10, 0x00, 0xB0, 0x10, 0x01, 0xB0]

/-- The state of `prog_S2` in front of its `IF_ICMPLT`: -1 was pushed first, 1 is on top. -/
def state_S2_icmplt : State :=
  { S := [c0_value.int 1, c0_value.int (-1)],
    P := [0x10, 0xFF, 0x10, 0x01, 0xA1, 0x00, 0x07, 0x10, 0x00, 0xB0, 0x10, 0x01, 0xB0],
    pc := 4, V := [], callStack := [], heap := initial_heap prog_S2 }

/-- A loop: `BIPUSH 0, BIPUSH 0, IF_CMPEQ -4, RETURN`, the offset -4 encoded as `FF FC`
and counted from the IF_CMPEQ at offset 4, so that the branch leads back to offset 0. -/
def prog_backward_branch : bc0_file := single_function [0x10, 0, 0x10, 0, 0x9F, 0xFF, 0xFC, 0xB0]

/-- The state of `prog_backward_branch` in front of its `IF_CMPEQ`. -/
def state_backward_branch : State :=
  { S := [c0_value.int 0, c0_value.int 0], P := [0x10, 0, 0x10, 0, 0x9F, 0xFF, 0xFC, 0xB0],
    pc := 4, V := [], callStack := [], heap := initial_heap prog_backward_branch }

/-- A state in front of the `GOTO -1` of the code `NOP, GOTO -1`, with a value on the
operand stack, a local variable and a frame on the call stack. -/
def state_goto_back : State :=
  { S := [c0_value.int 5], P := [0x00, 0xA7, 0xFF, 0xFF], pc := 1, V := [c0_value.int 9],
    callStack := [Saved.frame { S := [], P := [0xB0], pc := 0, V := [] }],
    heap := initial_heap (single_function [0x00, 0xA7, 0xFF, 0xFF]) }

/-- Scenario S6 of the spec: function 0 pushes 10 and 32 and calls function 1, which is
`VLOAD 0, VLOAD 1, IADD, RETURN`; function 0 then returns what the call left. -/
def prog_S6 : bc0_file :=
  { int_pool := [], string_pool := [], native_pool := [],
    function_pool :=
      [{ num_args := 0, num_vars := 0, code := [0x10, 10, 0x10, 32, 0xB8, 0, 1, 0xB0] },
       { num_args := 2, num_vars := 2, code := [0x15, 0, 0x15, 1, 0x60, 0xB0] }] }

/-- The state of `prog_S6` in front of its `INVOKESTATIC`: 10 was pushed first, 32 is on top. -/
def state_S6_call : State :=
  { S := [c0_value.int 32, c0_value.int 10], P := [0x10, 10, 0x10, 32, 0xB8, 0, 1, 0xB0], pc := 4,
    V := [], callStack := [], heap := initial_heap prog_S6 }

/-- The state of `prog_S6` right after its `INVOKESTATIC`. -/
def state_S6_entry : State :=
  { S := [], P := [0x15, 0, 0x15, 1, 0x60, 0xB0], pc := 0,
    V := [c0_value.int 10, c0_value.int 32],
    callStack := [Saved.frame { S := [], P := [0x10, 10, 0x10, 32, 0xB8, 0, 1, 0xB0], pc := 7, V := [] }],
    heap := initial_heap prog_S6 }

/-- The state of `prog_S6` in front of the `RETURN` of function 1. -/
def state_S6_return : State :=
  { S := [c0_value.int 42], P := [0x15, 0, 0x15, 1, 0x60, 0xB0], pc := 5,
    V := [c0_value.int 10, c0_value.int 32],
    callStack := [Saved.frame { S := [], P := [0x10, 10, 0x10, 32, 0xB8, 0, 1, 0xB0], pc := 7, V := [] }],
    heap := initial_heap prog_S6 }

/-- A call through a function pointer: function 0 is `ADDROF_STATIC 1, NOP, INVOKEDYNAMIC,
RETURN` and function 1 is `BIPUSH 5, RETURN`. -/
def prog_dynamic_static : bc0_file :=
  { int_pool := [], string_pool := [], native_pool := [],
    function_pool :=
      [{ num_args := 0, num_vars := 0, code := [0xCA, 0, 1, 0x00, 0xB6, 0xB0] },
       { num_args := 0, num_vars := 0, code := [0x10, 5, 0xB0] }] }

/-- The state of `prog_dynamic_static` in front of its `INVOKEDYNAMIC` (offset 4), the
pointer to function 1 on the operand stack. -/
def state_dynamic_static : State :=
  { S := [c0_value.ptr (Ptr.fn false 1)], P := [0xCA, 0, 1, 0x00, 0xB6, 0xB0], pc := 4, V := [],
    callStack := [], heap := initial_heap prog_dynamic_static }

/-- A native call through a function pointer: `BIPUSH 7, BIPUSH 10, BIPUSH 32,
ADDROF_NATIVE 0, NOP, INVOKEDYNAMIC, RETURN`, the native function 0 taking two
arguments. -/
def prog_dynamic_native : bc0_file :=
  { int_pool := [], string_pool := [],
    native_pool := [{ num_args := 2, function_table_index := 0 }],
    function_pool :=
      [{ num_args := 0, num_vars := 0,
         code := [0x10, 7, 0x10, 10, 0x10, 32, 0xCB, 0, 0, 0x00, 0xB6, 0xB0] }] }

/-- The state of `prog_dynamic_native` in front of its `INVOKEDYNAMIC` (offset 10): the
operand stack is `s ++ args ++ [f]` with `s = [7]`, `args = [10, 32]` and `f` the
pointer to the native function 0. -/
def state_dynamic_native : State :=
  { S := [c0_value.ptr (Ptr.fn true 0), c0_value.int 32, c0_value.int 10, c0_value.int 7],
    P := [0x10, 7, 0x10, 10, 0x10, 32, 0xCB, 0, 0, 0x00, 0xB6, 0xB0], pc := 10, V := [],
    callStack := [], heap := initial_heap prog_dynamic_native }

/-- The same call made by `INVOKENATIVE 0` on the operand stack `s ++ args`. -/
def state_static_native : State :=
  { S := [c0_value.int 32, c0_value.int 10, c0_value.int 7],
    P := [0x10, 7, 0x10, 10, 0x10, 32, 0xB7, 0, 0, 0xB0], pc := 6, V := [],
    callStack := [], heap := initial_heap prog_dynamic_native }

/-- A host table whose function 0 returns the difference of its two arguments. -/
def sub_natives : NativeTable := fun _ A h =>
  match A with
  | [c0_value.int a, c0_value.int b] => (c0_value.int (a - b), h)
  | _ => (c0_value.int 0, h)


/-- A program for the length of ADDROF_STATIC: `BIPUSH 5, ADDROF_STATIC 0, POP, RETURN`. -/
def prog_addrof_pop : bc0_file := single_function [0x10, 5, 0xCA, 0, 0, 0x57, 0xB0]

/-- Scenario S4 of the spec: `BIPUSH 3, NEWARRAY 4, DUP, BIPUSH 3, AADDS`. -/
def prog_S4 : bc0_file := single_function [0x10, 3, 0xBC, 4, 0x59, 0x10, 3, 0x63]

/-- An array of `2^25` elements of 127 bytes, indexed at its last element:
`ILDC 0, NEWARRAY 127, ILDC 1, AADDS, RETURN` with the integer pool `[2^25, 2^25 - 1]`. -/
def prog_big_array : bc0_file :=
  { int_pool := [33554432, 33554431], string_pool := [], native_pool := [],
    function_pool :=
      [{ num_args := 0, num_vars := 0, code := [0x13, 0, 0, 0xBC, 0x7F, 0x13, 0, 1, 0x63, 0xB0] }] }

/-- An array of negative length: `BIPUSH -1, NEWARRAY 4, RETURN`. -/
def prog_negative_array : bc0_file := single_function [0x10, 0xFF, 0xBC, 4, 0xB0]

/-- An array of 3 elements of 16 bytes, indexed at its last element:
`BIPUSH 3, NEWARRAY 16, BIPUSH 2, AADDS, RETURN`. -/
def prog_wide_array : bc0_file := single_function [0x10, 3, 0xBC, 16, 0x10, 2, 0x63, 0xB0]

/-- A tag put on the null pointer: `ACONST_NULL, ADDTAG 7, RETURN`. -/
def prog_null_addtag : bc0_file := single_function [0x01, 0xC2, 0, 7, 0xB0]

/-- Scenario S5 of the spec: `NEW 4, ADDTAG 0x0007, CHECKTAG 0x0007, IMLOAD, RETURN`. -/
def prog_S5 : bc0_file := single_function [0xBB, 4, 0xC2, 0, 7, 0xC0, 0, 7, 0x2E, 0xB0]

/-- Scenario S2 with the branch offset 6 in place of 7: `BIPUSH 0xFF, BIPUSH 0x01,
IF_ICMPLT +6, BIPUSH 0, RETURN, BIPUSH 1, RETURN`. -/
def prog_S2_offset6 : bc0_file :=
  single_function [0x10, 0xFF, 0x10, 0x01, 0xA1, 0x00, 0x06, 0x10, 0x00, 0xB0, 0x10, 0x01, 0xB0]

/-- A bytecode file with 32769 functions: functions 0 to 32767 are
`INVOKESTATIC 0x8000, RETURN` and function 32768 is `BIPUSH 9, RETURN`; the
integer pool has 32769 entries, the last one being 9, and the native pool has
32769 entries. -/
def prog_many_functions : bc0_file :=
  { int_pool := List.replicate 32768 0 ++ [9], string_pool := [],
    native_pool := List.replicate 32769 { num_args := 0, function_table_index := 0 },
    function_pool :=
      List.replicate 32768 { num_args := 0, num_vars := 0, code := [0xB8, 0x80, 0x00, 0xB0] }
        ++ [{ num_args := 0, num_vars := 0, code := [0x10, 9, 0xB0] }] }

/-- A code with an `IDIV` at offset 0 and an `IREM` at offset 2: `IDIV, RETURN, IREM, RETURN`. -/
def prog_div_rem : bc0_file := single_function [0x6C, 0xB0, 0x70, 0xB0]

/-- A state in front of the `IDIV` of `prog_div_rem`, with -7 pushed first and 2 on top. -/
def state_idiv_example : State :=
  { S := [c0_value.int 2, c0_value.int (-7)], P := [0x6C, 0xB0, 0x70, 0xB0], pc := 0, V := [],
    callStack := [], heap := initial_heap prog_div_rem }

/-- A state in front of the `IREM` of `prog_div_rem`, with -7 pushed first and 2 on top. -/
def state_irem_example : State :=
  { S := [c0_value.int 2, c0_value.int (-7)], P := [0x6C, 0xB0, 0x70, 0xB0], pc := 2, V := [],
    callStack := [], heap := initial_heap prog_div_rem }

/-- The state of `prog_addrof_pop` in front of its `ADDROF_STATIC` (offset 2). -/
def state_addrof_static : State :=
  { S := [c0_value.int 5], P := [0x10, 5, 0xCA, 0, 0, 0x57, 0xB0], pc := 2, V := [],
    callStack := [], heap := initial_heap prog_addrof_pop }

/-- The state of `prog_S4` in front of its `AADDS`: the index 3 on top of the pointer to
an array of 3 elements of 4 bytes. -/
def state_S4_aadds : State :=
  { S := [c0_value.int 3, c0_value.ptr (Ptr.addr 4097), c0_value.ptr (Ptr.addr 4097)],
    P := [0x10, 3, 0xBC, 4, 0x59, 0x10, 3, 0x63], pc := 7, V := [], callStack := [],
    heap :=
      { brk := 4137,
        blocks := [{ base := 4113, size := 24, zeroed := true },
                   { base := 4097, size := 16, zeroed := false },
                   { base := 4096, size := 0, zeroed := false }],
        cells := [(4097, Cell.array { count := 3, elt_size := 4, elems := Ptr.addr 4113 })] } }

/-- The state of `prog_big_array` in front of its `AADDS`: the index `2^25 - 1` on top of
the pointer to an array of `2^25` elements of 127 bytes. -/
def state_big_array_aadds : State :=
  { S := [c0_value.int 33554431, c0_value.ptr (Ptr.addr 4097)],
    P := [0x13, 0, 0, 0xBC, 0x7F, 0x13, 0, 1, 0x63, 0xB0], pc := 8, V := [], callStack := [],
    heap :=
      { brk := 268439569,
        blocks := [{ base := 4113, size := 268435456, zeroed := true },
                   { base := 4097, size := 16, zeroed := false },
                   { base := 4096, size := 0, zeroed := false }],
        cells := [(4097, Cell.array { count := 33554432, elt_size := 127, elems := Ptr.addr 4113 })] } }

/-- The state of `prog_negative_array` in front of its `NEWARRAY`, the count -1 on the stack. -/
def state_negative_array : State :=
  { S := [c0_value.int (-1)], P := [0x10, 0xFF, 0xBC, 4, 0xB0], pc := 2, V := [],
    callStack := [], heap := initial_heap prog_negative_array }

/-- The heap of `prog_wide_array` after its `NEWARRAY 16` with the count 3: the header at
4097 and an element region of 24 bytes at 4113. -/
def heap_wide_array : Heap :=
  { brk := 4137,
    blocks := [{ base := 4113, size := 24, zeroed := true },
               { base := 4097, size := 16, zeroed := false },
               { base := 4096, size := 0, zeroed := false }],
    cells := [(4097, Cell.array { count := 3, elt_size := 16, elems := Ptr.addr 4113 })] }

/-- The state of `prog_null_addtag` in front of its `ADDTAG`, the null pointer on the stack. -/
def state_null_addtag : State :=
  { S := [c0_value.ptr Ptr.null], P := [0x01, 0xC2, 0, 7, 0xB0], pc := 1, V := [],
    callStack := [], heap := initial_heap prog_null_addtag }

/-- The state of `prog_S5` in front of its `ADDTAG`: on the stack the pointer to the 4
bytes that `NEW 4` has allocated. -/
def state_S5_addtag : State :=
  { S := [c0_value.ptr (Ptr.addr 4097)], P := [0xBB, 4, 0xC2, 0, 7, 0xC0, 0, 7, 0x2E, 0xB0],
    pc := 2, V := [], callStack := [],
    heap :=
      { brk := 4101,
        blocks := [{ base := 4097, size := 4, zeroed := false },
                   { base := 4096, size := 0, zeroed := false }],
        cells := [] } }

/-- A state running the code `c` from offset 0 with empty stack, locals and call stack. -/
def start_of (c : List Nat) : State :=
  { S := [], P := c, pc := 0, V := [], callStack := [],
    heap := { brk := 4097, blocks := [{ base := 4096, size := 0, zeroed := false }], cells := [] } }

/-- A heap with a tagged-pointer struct at 5000 that carries the tag 7, and at 6000 a
`c0_value` that is a tagged pointer to that struct. -/
def heap_tagged_cell : Heap :=
  { brk := 7000,
    blocks := [{ base := 6000, size := 16, zeroed := true },
               { base := 5000, size := 16, zeroed := true }],
    cells := [(6000, Cell.value (c0_value.tagged (Ptr.addr 5000) 7)),
              (5000, Cell.tagged Ptr.null 7)] }

/-- A call whose callee calls a native function through a pointer: function 0 is
`INVOKESTATIC 1, RETURN` and function 1 is `ADDROF_NATIVE 0, NOP, INVOKEDYNAMIC, RETURN`;
the native function 0 takes no argument. -/
def prog_call_dynamic_native : bc0_file :=
  { int_pool := [], string_pool := [],
    native_pool := [{ num_args := 0, function_table_index := 0 }],
    function_pool :=
      [{ num_args := 0, num_vars := 0, code := [0xB8, 0, 1, 0xB0] },
       { num_args := 0, num_vars := 0, code := [0xCB, 0, 0, 0x00, 0xB6, 0xB0] }] }

/-- The state of `prog_call_dynamic_native` right after the `INVOKESTATIC` of function 0:
function 1 starts, and the frame of the call is on the call stack. -/
def state_callee_entry : State :=
  { S := [], P := [0xCB, 0, 0, 0x00, 0xB6, 0xB0], pc := 0, V := [],
    callStack := [Saved.frame { S := [], P := [0xB8, 0, 1, 0xB0], pc := 3, V := [] }],
    heap := initial_heap prog_call_dynamic_native }

/-- The state of `prog_call_dynamic_native` in front of the `RETURN` of function 1: the
result of the native call is alone on the operand stack, and the frame that
INVOKEDYNAMIC has pushed lies on top of the frame of the call. -/
def state_callee_return : State :=
  { S := [c0_value.int 0], P := [0xCB, 0, 0, 0x00, 0xB6, 0xB0], pc := 5, V := [],
    callStack := [Saved.alias [0xCB, 0, 0, 0x00, 0xB6, 0xB0] 4,
                  Saved.frame { S := [], P := [0xB8, 0, 1, 0xB0], pc := 3, V := [] }],
    heap := initial_heap prog_call_dynamic_native }

/-! ## Arithmetic facts -/

theorem wrap32_is_int32 (z : Int) : is_int32 (wrap32 z) := by
  unfold is_int32 wrap32 INT_MIN INT_MAX; omega

theorem wrap32_dvd (z : Int) : (4294967296 : Int) ∣ (wrap32 z - z) := by
  unfold wrap32; omega

theorem wrap32_reduces (z : Int) : reduces_mod32 z (wrap32 z) :=
  ⟨wrap32_is_int32 z, wrap32_dvd z⟩

theorem ldiff_lt {m k : Nat} (n : Nat) (h : m < 2 ^ k) : Nat.ldiff m n < 2 ^ k := by
  apply Nat.lt_pow_two_of_testBit
  intro i hi
  rw [Nat.testBit_ldiff]
  have : m < 2 ^ i := lt_of_lt_of_le h (Nat.pow_le_pow_right (by norm_num) hi)
  simp [Nat.testBit_lt_two_pow this]

theorem shl8_or (hi lo : Nat) (h2 : lo < 256) : (hi <<< 8) ||| lo = hi * 256 + lo := by
  rw [Nat.shiftLeft_eq]
  have := @Nat.mul_add_lt_is_or 8 lo (by simpa using h2) hi
  rw [show hi * 2 ^ 8 = 2 ^ 8 * hi by ring, ← this]
  ring

theorem land_is_int32 {x y : Int} (hx : is_int32 x) (hy : is_int32 y) : is_int32 (Int.land x y) := by
  unfold is_int32 INT_MIN INT_MAX at *
  rcases x with m | m <;> rcases y with n | n <;>
    simp only [Int.land, Int.negSucc_eq, Int.ofNat_eq_coe] at *
  · have h1 : m &&& n ≤ m := Nat.and_le_left
    omega
  · have h1 := @ldiff_lt m 31 n (by omega)
    omega
  · have h1 := @ldiff_lt n 31 m (by omega)
    omega
  · have h1 := @Nat.or_lt_two_pow m n 31 (by omega) (by omega)
    omega

theorem lor_is_int32 {x y : Int} (hx : is_int32 x) (hy : is_int32 y) : is_int32 (Int.lor x y) := by
  unfold is_int32 INT_MIN INT_MAX at *
  rcases x with m | m <;> rcases y with n | n <;>
    simp only [Int.lor, Int.negSucc_eq, Int.ofNat_eq_coe] at *
  · have h1 := @Nat.or_lt_two_pow m n 31 (by omega) (by omega)
    omega
  · have h1 := @ldiff_lt n 31 m (by omega)
    omega
  · have h1 := @ldiff_lt m 31 n (by omega)
    omega
  · have h1 : m &&& n ≤ m := Nat.and_le_left
    omega

theorem xor_is_int32 {x y : Int} (hx : is_int32 x) (hy : is_int32 y) : is_int32 (Int.xor x y) := by
  unfold is_int32 INT_MIN INT_MAX at *
  rcases x with m | m <;> rcases y with n | n <;>
    simp only [Int.xor, Int.negSucc_eq, Int.ofNat_eq_coe] at * <;>
    have h1 := @Nat.xor_lt_two_pow m n 31 (by omega) (by omega) <;>
    omega

theorem tdiv_eq_trunc_quot (x y : Int) : Int.tdiv x y = trunc_quot x y := by
  unfold trunc_quot
  rcases Int.lt_trichotomy y 0 with hy | hy | hy
  · obtain ⟨n, rfl⟩ := Int.eq_negSucc_of_lt_zero hy
    rcases Int.lt_trichotomy x 0 with hx | hx | hx
    · obtain ⟨m, rfl⟩ := Int.eq_negSucc_of_lt_zero hx
      simp [Int.tdiv, Int.sign]
    · subst hx; simp
    · obtain ⟨m, rfl⟩ := Int.eq_succ_of_zero_lt hx
      simp [Int.tdiv, Int.sign]
      rfl
  · subst hy; simp
  · obtain ⟨n, rfl⟩ := Int.eq_succ_of_zero_lt hy
    rcases Int.lt_trichotomy x 0 with hx | hx | hx
    · obtain ⟨m, rfl⟩ := Int.eq_negSucc_of_lt_zero hx
      simp [Int.tdiv, Int.sign]
      rfl
    · subst hx; simp
    · obtain ⟨m, rfl⟩ := Int.eq_succ_of_zero_lt hx
      simp [Int.tdiv, Int.sign]
      rfl

theorem tmod_eq_trunc_rem (x y : Int) : Int.tmod x y = trunc_rem x y := by
  unfold trunc_rem
  rcases Int.lt_trichotomy y 0 with hy | hy | hy
  · obtain ⟨n, rfl⟩ := Int.eq_negSucc_of_lt_zero hy
    rcases Int.lt_trichotomy x 0 with hx | hx | hx
    · obtain ⟨m, rfl⟩ := Int.eq_negSucc_of_lt_zero hx
      simp [Int.tmod, Int.sign]
    · subst hx; simp
    · obtain ⟨m, rfl⟩ := Int.eq_succ_of_zero_lt hx
      simp [Int.tmod, Int.sign]
      rfl
  · subst hy
    simp only [Int.tmod_zero, Int.natAbs_zero, Nat.mod_zero]
    exact (Int.sign_mul_natAbs x).symm
  · obtain ⟨n, rfl⟩ := Int.eq_succ_of_zero_lt hy
    rcases Int.lt_trichotomy x 0 with hx | hx | hx
    · obtain ⟨m, rfl⟩ := Int.eq_negSucc_of_lt_zero hx
      simp [Int.tmod, Int.sign]
    · subst hx; simp
    · obtain ⟨m, rfl⟩ := Int.eq_succ_of_zero_lt hx
      simp [Int.tmod, Int.sign]
      rfl

theorem tdiv_is_int32 {x y : Int} (hx : is_int32 x) (hy : is_int32 y)
    (h : ¬ (x = INT_MIN ∧ y = -1)) : is_int32 (Int.tdiv x y) := by
  unfold is_int32 INT_MIN INT_MAX at *
  have habs : (Int.tdiv x y).natAbs = x.natAbs / y.natAbs := Int.natAbs_tdiv x y
  have hle : x.natAbs / y.natAbs ≤ x.natAbs := Nat.div_le_self _ _
  by_cases hy1 : y = -1
  · subst hy1
    have : Int.tdiv x (-1) = -x := by
      rw [Int.tdiv_neg]; simp
    rw [this]; omega
  · by_cases hx1 : x = -2147483648
    · subst hx1
      have h2 : (-2147483648 : Int).natAbs = 2147483648 := rfl
      rw [h2] at habs hle
      by_cases hy0 : y.natAbs = 0
      · have : y = 0 := by omega
        subst this
        simp
      · by_cases hy2 : y.natAbs = 1
        · have : y = 1 := by omega
          subst this
          simp
        · have : 2147483648 / y.natAbs < 2147483648 := Nat.div_lt_self (by norm_num) (by omega)
          omega
    · omega

theorem tmod_is_int32 {x : Int} (y : Int) (hx : is_int32 x) : is_int32 (Int.tmod x y) := by
  unfold is_int32 INT_MIN INT_MAX at *
  have h := tmod_eq_trunc_rem x y
  unfold trunc_rem at h
  have hle : x.natAbs % y.natAbs ≤ x.natAbs := Nat.mod_le _ _
  rcases Int.lt_trichotomy x 0 with h0 | h0 | h0
  · rw [Int.sign_eq_neg_one_of_neg h0] at h; omega
  · subst h0; simp
  · rw [Int.sign_eq_one_of_pos h0] at h; omega

theorem shiftRight_floor (x : Int) (n : Nat) :
    (x >>> n) * 2 ^ n ≤ x ∧ x < (x >>> n + 1) * 2 ^ n := by
  rw [Int.shiftRight_eq_div_pow]
  have hpos : (0 : Int) < ((2 ^ n : Nat) : Int) := by positivity
  have h1 := Int.ediv_mul_le x (ne_of_gt hpos)
  have h2 := Int.lt_ediv_add_one_mul_self x hpos
  push_cast at *
  exact ⟨h1, h2⟩

theorem shiftRight_is_int32 {x : Int} (n : Nat) (hx : is_int32 x) : is_int32 (x >>> n) := by
  obtain ⟨h1, h2⟩ := shiftRight_floor x n
  unfold is_int32 INT_MIN INT_MAX at *
  have hpos : (1 : Int) ≤ 2 ^ n := by
    have : (0 : Int) < 2 ^ n := by positivity
    omega
  constructor
  · by_contra hc
    push_neg at hc
    have : (x >>> n + 1) * 2 ^ n ≤ (x >>> n + 1) * 1 := by
      apply Int.mul_le_mul_of_nonpos_left _ hpos
      omega
    omega
  · by_contra hc
    push_neg at hc
    have : (x >>> n) * 1 ≤ (x >>> n) * 2 ^ n := by
      apply Int.mul_le_mul_of_nonneg_left hpos
      omega
    omega


/-! ## Fetching and dispatch -/

theorem pc_inc_eq (s : State) (h : s.pc + 1 < 18446744073709551616) :
    s.pc_inc = { s with pc := s.pc + 1 } := by
  unfold State.pc_inc
  rw [Nat.mod_eq_of_lt h]

theorem opcode_at_lt {s : State} {op : Opcode} (h : opcode_at s = some op) :
    s.pc < s.P.length := by
  unfold opcode_at byte_at at h
  by_contra hlt
  have : s.P[s.pc]? = none := List.getElem?_eq_none (by omega)
  rw [this] at h
  simp at h

theorem step_eq_exec_op (bc0 : bc0_file) (nt : NativeTable) {s : State} {op : Opcode}
    (h : opcode_at s = some op) : step bc0 nt s = exec_op bc0 nt op s := by
  unfold opcode_at at h
  unfold step
  cases hb : byte_at s.P s.pc with
  | error f => rw [hb] at h; cases h
  | ok b => rw [hb] at h; simp only at h; simp only [h]

/-! ## The binary operations -/

theorem exec_IADD_eq {s : State} {x y : Int} {rest : List c0_value}
    (hS : s.S = c0_value.int y :: c0_value.int x :: rest) :
    exec_IADD s = Except.ok { s.pc_inc with S := c0_value.int (wrap32 (x + y)) :: rest } := by
  simp [exec_IADD, pop_int, c0v_pop, State.pc_inc, hS, val2int, push_int, c0v_push, int2val,
    bind, Except.bind, pure, Except.pure]

theorem exec_ISUB_eq {s : State} {x y : Int} {rest : List c0_value}
    (hS : s.S = c0_value.int y :: c0_value.int x :: rest) :
    exec_ISUB s = Except.ok { s.pc_inc with S := c0_value.int (wrap32 (x - y)) :: rest } := by
  simp [exec_ISUB, pop_int, c0v_pop, State.pc_inc, hS, val2int, push_int, c0v_push, int2val,
    bind, Except.bind, pure, Except.pure]

theorem exec_IMUL_eq {s : State} {x y : Int} {rest : List c0_value}
    (hS : s.S = c0_value.int y :: c0_value.int x :: rest) :
    exec_IMUL s = Except.ok { s.pc_inc with S := c0_value.int (wrap32 (x * y)) :: rest } := by
  simp [exec_IMUL, pop_int, c0v_pop, State.pc_inc, hS, val2int, push_int, c0v_push, int2val,
    bind, Except.bind, pure, Except.pure]

theorem exec_IAND_eq {s : State} {x y : Int} {rest : List c0_value}
    (hS : s.S = c0_value.int y :: c0_value.int x :: rest) :
    exec_IAND s = Except.ok { s.pc_inc with S := c0_value.int (Int.land x y) :: rest } := by
  simp [exec_IAND, pop_int, c0v_pop, State.pc_inc, hS, val2int, push_int, c0v_push, int2val,
    bind, Except.bind, pure, Except.pure]

theorem exec_IOR_eq {s : State} {x y : Int} {rest : List c0_value}
    (hS : s.S = c0_value.int y :: c0_value.int x :: rest) :
    exec_IOR s = Except.ok { s.pc_inc with S := c0_value.int (Int.lor x y) :: rest } := by
  simp [exec_IOR, pop_int, c0v_pop, State.pc_inc, hS, val2int, push_int, c0v_push, int2val,
    bind, Except.bind, pure, Except.pure]

theorem exec_IXOR_eq {s : State} {x y : Int} {rest : List c0_value}
    (hS : s.S = c0_value.int y :: c0_value.int x :: rest) :
    exec_IXOR s = Except.ok { s.pc_inc with S := c0_value.int (Int.xor x y) :: rest } := by
  simp [exec_IXOR, pop_int, c0v_pop, State.pc_inc, hS, val2int, push_int, c0v_push, int2val,
    bind, Except.bind, pure, Except.pure]

theorem exec_IDIV_eq {s : State} {x y : Int} {rest : List c0_value}
    (hS : s.S = c0_value.int y :: c0_value.int x :: rest) :
    exec_IDIV s = if y = 0 ∨ (x = INT_MIN ∧ y = -1) then Except.error Fault.arith_error
      else Except.ok { s.pc_inc with S := c0_value.int (Int.tdiv x y) :: rest } := by
  simp [exec_IDIV, pop_int, c0v_pop, State.pc_inc, hS, val2int, push_int, c0v_push, int2val,
    bind, Except.bind, pure, Except.pure, throw, throwThe, MonadExceptOf.throw]
  split_ifs <;> simp_all

theorem exec_IREM_eq {s : State} {x y : Int} {rest : List c0_value}
    (hS : s.S = c0_value.int y :: c0_value.int x :: rest) :
    exec_IREM s = if y = 0 ∨ (x = INT_MIN ∧ y = -1) then Except.error Fault.arith_error
      else Except.ok { s.pc_inc with S := c0_value.int (Int.tmod x y) :: rest } := by
  simp [exec_IREM, pop_int, c0v_pop, State.pc_inc, hS, val2int, push_int, c0v_push, int2val,
    bind, Except.bind, pure, Except.pure, throw, throwThe, MonadExceptOf.throw]
  split_ifs <;> simp_all

theorem exec_ISHR_eq {s : State} {x y : Int} {rest : List c0_value}
    (hS : s.S = c0_value.int y :: c0_value.int x :: rest) :
    exec_ISHR s = if y < 0 ∨ y ≥ 32 then Except.error Fault.arith_error
      else Except.ok { s.pc_inc with S := c0_value.int (x >>> y.toNat) :: rest } := by
  simp [exec_ISHR, pop_int, c0v_pop, State.pc_inc, hS, val2int, push_int, c0v_push, int2val,
    bind, Except.bind, pure, Except.pure, throw, throwThe, MonadExceptOf.throw]
  split_ifs <;> first | rfl | omega

theorem exec_ISHL_eq {s : State} {x y : Int} {rest : List c0_value}
    (hS : s.S = c0_value.int y :: c0_value.int x :: rest) :
    exec_ISHL s = if y < 0 ∨ y ≥ 32 then Except.error Fault.arith_error
      else Except.ok { s.pc_inc with S := c0_value.int (wrap32 (x * 2 ^ y.toNat)) :: rest } := by
  simp [exec_ISHL, pop_int, c0v_pop, State.pc_inc, hS, val2int, push_int, c0v_push, int2val,
    bind, Except.bind, pure, Except.pure, throw, throwThe, MonadExceptOf.throw]
  split_ifs <;> first | rfl | omega

theorem after_binop_eq {s : State} {op : Opcode} (h : opcode_at s = some op)
    (hP : s.P.length < 2 ^ 63) (r : Int) (rest : List c0_value) :
    ({ s.pc_inc with S := c0_value.int r :: rest } : State) = after_binop s r rest := by
  have := opcode_at_lt h
  rw [pc_inc_eq s (by omega)]
  rfl


/-- C1: with the 32-bit integers `x` and `y` pushed in that order (`y` on top), each
binary arithmetic instruction pops both and pushes one integer, leaves the rest
of the operand stack as it was and moves `pc` one byte on.  IADD, ISUB and IMUL
push `x + y`, `x - y`, `x * y` reduced modulo `2^32` to a signed 32-bit value;
IAND, IOR and IXOR push the integer whose bits are the conjunction, disjunction
and exclusive disjunction of the bits of `x` and `y`; when no arithmetic fault is
raised, IDIV pushes the quotient truncated toward zero, IREM the remainder
with the sign of `x`, ISHR the sign-extending shift (the floor of `x / 2^y`) and
ISHL `x * 2^y` reduced to its low 32 bits. -/
theorem C1_binary_arithmetic (bc0 : bc0_file) (nt : NativeTable) (s : State) (x y : Int)
    (rest : List c0_value) (hx : is_int32 x) (hy : is_int32 y) (hP : s.P.length < 2 ^ 63)
    (hS : s.S = c0_value.int y :: c0_value.int x :: rest) :
    (opcode_at s = some Opcode.IADD → ∃ r, reduces_mod32 (x + y) r ∧
        step bc0 nt s = Outcome.running (after_binop s r rest)) ∧
    (opcode_at s = some Opcode.ISUB → ∃ r, reduces_mod32 (x - y) r ∧
        step bc0 nt s = Outcome.running (after_binop s r rest)) ∧
    (opcode_at s = some Opcode.IMUL → ∃ r, reduces_mod32 (x * y) r ∧
        step bc0 nt s = Outcome.running (after_binop s r rest)) ∧
    (opcode_at s = some Opcode.IAND → ∃ r, is_int32 r ∧
        (∀ i, r.testBit i = (x.testBit i && y.testBit i)) ∧
        step bc0 nt s = Outcome.running (after_binop s r rest)) ∧
    (opcode_at s = some Opcode.IOR → ∃ r, is_int32 r ∧
        (∀ i, r.testBit i = (x.testBit i || y.testBit i)) ∧
        step bc0 nt s = Outcome.running (after_binop s r rest)) ∧
    (opcode_at s = some Opcode.IXOR → ∃ r, is_int32 r ∧
        (∀ i, r.testBit i = (x.testBit i ^^ y.testBit i)) ∧
        step bc0 nt s = Outcome.running (after_binop s r rest)) ∧
    (opcode_at s = some Opcode.IDIV → y ≠ 0 → ¬ (x = INT_MIN ∧ y = -1) →
        is_int32 (trunc_quot x y) ∧
        step bc0 nt s = Outcome.running (after_binop s (trunc_quot x y) rest)) ∧
    (opcode_at s = some Opcode.IREM → y ≠ 0 → ¬ (x = INT_MIN ∧ y = -1) →
        is_int32 (trunc_rem x y) ∧
        step bc0 nt s = Outcome.running (after_binop s (trunc_rem x y) rest)) ∧
    (opcode_at s = some Opcode.ISHR → 0 ≤ y → y < 32 → ∃ r, is_int32 r ∧
        r * 2 ^ y.toNat ≤ x ∧ x < (r + 1) * 2 ^ y.toNat ∧
        step bc0 nt s = Outcome.running (after_binop s r rest)) ∧
    (opcode_at s = some Opcode.ISHL → 0 ≤ y → y < 32 → ∃ r, reduces_mod32 (x * 2 ^ y.toNat) r ∧
        step bc0 nt s = Outcome.running (after_binop s r rest)) := by
  refine ⟨?_, ?_, ?_, ?_, ?_, ?_, ?_, ?_, ?_, ?_⟩
  · intro h
    refine ⟨wrap32 (x + y), wrap32_reduces _, ?_⟩
    rw [step_eq_exec_op bc0 nt h, ← after_binop_eq h hP]
    simp only [exec_op, exec_IADD_eq hS, Outcome.of_exec]
  · intro h
    refine ⟨wrap32 (x - y), wrap32_reduces _, ?_⟩
    rw [step_eq_exec_op bc0 nt h, ← after_binop_eq h hP]
    simp only [exec_op, exec_ISUB_eq hS, Outcome.of_exec]
  · intro h
    refine ⟨wrap32 (x * y), wrap32_reduces _, ?_⟩
    rw [step_eq_exec_op bc0 nt h, ← after_binop_eq h hP]
    simp only [exec_op, exec_IMUL_eq hS, Outcome.of_exec]
  · intro h
    refine ⟨Int.land x y, land_is_int32 hx hy, Int.testBit_land x y, ?_⟩
    rw [step_eq_exec_op bc0 nt h, ← after_binop_eq h hP]
    simp only [exec_op, exec_IAND_eq hS, Outcome.of_exec]
  · intro h
    refine ⟨Int.lor x y, lor_is_int32 hx hy, Int.testBit_lor x y, ?_⟩
    rw [step_eq_exec_op bc0 nt h, ← after_binop_eq h hP]
    simp only [exec_op, exec_IOR_eq hS, Outcome.of_exec]
  · intro h
    refine ⟨Int.xor x y, xor_is_int32 hx hy, Int.testBit_lxor x y, ?_⟩
    rw [step_eq_exec_op bc0 nt h, ← after_binop_eq h hP]
    simp only [exec_op, exec_IXOR_eq hS, Outcome.of_exec]
  · intro h h0 h1
    rw [← tdiv_eq_trunc_quot]
    refine ⟨tdiv_is_int32 hx hy h1, ?_⟩
    rw [step_eq_exec_op bc0 nt h, ← after_binop_eq h hP]
    simp only [exec_op, exec_IDIV_eq hS, Outcome.of_exec]
    rw [if_neg (by tauto)]
  · intro h h0 h1
    rw [← tmod_eq_trunc_rem]
    refine ⟨tmod_is_int32 y hx, ?_⟩
    rw [step_eq_exec_op bc0 nt h, ← after_binop_eq h hP]
    simp only [exec_op, exec_IREM_eq hS, Outcome.of_exec]
    rw [if_neg (by tauto)]
  · intro h h0 h1
    refine ⟨x >>> y.toNat, shiftRight_is_int32 _ hx, (shiftRight_floor x _).1,
      (shiftRight_floor x _).2, ?_⟩
    rw [step_eq_exec_op bc0 nt h, ← after_binop_eq h hP]
    simp only [exec_op, exec_ISHR_eq hS, Outcome.of_exec]
    rw [if_neg (by omega)]
  · intro h h0 h1
    refine ⟨wrap32 (x * 2 ^ y.toNat), wrap32_reduces _, ?_⟩
    rw [step_eq_exec_op bc0 nt h, ← after_binop_eq h hP]
    simp only [exec_op, exec_ISHL_eq hS, Outcome.of_exec]
    rw [if_neg (by omega)]

/-- C1, witness: with the stack `[3, 4]` (4 on top) in `BIPUSH 3, BIPUSH 4, IADD, RETURN`,
the IADD leaves 7 alone on the stack. -/
theorem C1_binary_arithmetic_witness :
    run prog_S1 no_natives 2 (State.mk [] [0x10, 3, 0x10, 4, 0x60, 0xB0] 0 [] [] (initial_heap prog_S1))
      = Outcome.running state_S1_iadd ∧
    step prog_S1 no_natives state_S1_iadd = Outcome.running (after_binop state_S1_iadd 7 []) := by
  refine ⟨by decide, ?_⟩
  obtain ⟨r, ⟨⟨h1, h2⟩, h3⟩, h4⟩ :=
    (C1_binary_arithmetic prog_S1 no_natives state_S1_iadd 3 4 [] (by decide) (by decide)
      (by decide) rfl).1 (by decide)
  have hr : r = 7 := by
    unfold INT_MIN at h1
    unfold INT_MAX at h2
    omega
  rw [h4, hr]

/-- C2: with `v2` pushed first and `v1` on top, IDIV and IREM raise the arithmetic
fault exactly when `v1 = 0` or (`v2 = INT_MIN` and `v1 = -1`), ISHL and ISHR raise
it exactly when `v1 < 0` or `v1 ≥ 32`, and IADD, ISUB, IMUL, IAND, IOR, IXOR never
raise it.  The fault is an outcome without a state: nothing is pushed. -/
theorem C2_arithmetic_faults (bc0 : bc0_file) (nt : NativeTable) (s : State) (v1 v2 : Int)
    (rest : List c0_value) (hS : s.S = c0_value.int v1 :: c0_value.int v2 :: rest) :
    (opcode_at s = some Opcode.IDIV ∨ opcode_at s = some Opcode.IREM →
      (step bc0 nt s = Outcome.stopped Fault.arith_error ↔
        v1 = 0 ∨ (v2 = INT_MIN ∧ v1 = -1))) ∧
    (opcode_at s = some Opcode.ISHL ∨ opcode_at s = some Opcode.ISHR →
      (step bc0 nt s = Outcome.stopped Fault.arith_error ↔ v1 < 0 ∨ v1 ≥ 32)) ∧
    (opcode_at s = some Opcode.IADD ∨ opcode_at s = some Opcode.ISUB ∨
      opcode_at s = some Opcode.IMUL ∨ opcode_at s = some Opcode.IAND ∨
      opcode_at s = some Opcode.IOR ∨ opcode_at s = some Opcode.IXOR →
      step bc0 nt s ≠ Outcome.stopped Fault.arith_error) := by
  refine ⟨?_, ?_, ?_⟩
  · rintro (h | h) <;> rw [step_eq_exec_op bc0 nt h]
    · simp only [exec_op, exec_IDIV_eq hS]
      split_ifs with hc <;> simp [Outcome.of_exec, hc]
    · simp only [exec_op, exec_IREM_eq hS]
      split_ifs with hc <;> simp [Outcome.of_exec, hc]
  · rintro (h | h) <;> rw [step_eq_exec_op bc0 nt h]
    · simp only [exec_op, exec_ISHL_eq hS]
      split_ifs with hc <;> simp [Outcome.of_exec] <;> omega
    · simp only [exec_op, exec_ISHR_eq hS]
      split_ifs with hc <;> simp [Outcome.of_exec] <;> omega
  · rintro (h | h | h | h | h | h) <;> rw [step_eq_exec_op bc0 nt h]
    · simp [exec_op, exec_IADD_eq hS, Outcome.of_exec]
    · simp [exec_op, exec_ISUB_eq hS, Outcome.of_exec]
    · simp [exec_op, exec_IMUL_eq hS, Outcome.of_exec]
    · simp [exec_op, exec_IAND_eq hS, Outcome.of_exec]
    · simp [exec_op, exec_IOR_eq hS, Outcome.of_exec]
    · simp [exec_op, exec_IXOR_eq hS, Outcome.of_exec]

/-- C2, witness: `BIPUSH 1, BIPUSH 0, IDIV` reaches the IDIV with 0 on top of 1, and
the IDIV raises the arithmetic fault. -/
theorem C2_arithmetic_faults_witness :
    run prog_S3 no_natives 2 (State.mk [] [0x10, 1, 0x10, 0, 0x6C, 0xB0] 0 [] [] (initial_heap prog_S3))
      = Outcome.running state_S3_idiv ∧
    step prog_S3 no_natives state_S3_idiv = Outcome.stopped Fault.arith_error :=
  ⟨by decide,
   ((C2_arithmetic_faults prog_S3 no_natives state_S3_idiv 0 1 [] rfl).1
      (Or.inl (by decide))).mpr (Or.inl rfl)⟩


/-! ## Branches -/

theorem byte_at_lt {P : List Nat} {i b : Nat} (h : byte_at P i = Except.ok b) : b < 256 := by
  unfold byte_at at h
  split at h
  · simp only [pure, Except.pure, Except.ok.injEq] at h
    omega
  · cases h

theorem byte_at_length {P : List Nat} {i b : Nat} (h : byte_at P i = Except.ok b) :
    i < P.length := by
  unfold byte_at at h
  by_contra hlt
  have : P[i]? = none := List.getElem?_eq_none (by omega)
  rw [this] at h
  cases h

theorem branch_taken_eq (s : State) (p : Nat) {hi lo : Nat} (hpc : s.pc = p + 1)
    (hhi : byte_at s.P s.pc = Except.ok hi) (hlo : byte_at s.P (s.pc + 1) = Except.ok lo)
    (hP : s.P.length < 2 ^ 63) :
    branch_taken s = Except.ok { s with pc := p + (hi * 256 + lo) } := by
  have h1 := byte_at_lt hlo
  have h2 := byte_at_lt hhi
  have h3 := byte_at_length hlo
  have hmod : (s.pc + 1) % 18446744073709551616 = s.pc + 1 := Nat.mod_eq_of_lt (by omega)
  simp only [branch_taken, State.pc_inc, State.pc_add, size_t_add, hhi, hlo, hmod, bind,
    Except.bind, pure, Except.pure, shl8_or hi lo h1]
  congr 2
  push_cast
  omega

theorem read_uint16_eq (s : State) {hi lo : Nat}
    (hhi : byte_at s.P s.pc = Except.ok hi) (hlo : byte_at s.P (s.pc + 1) = Except.ok lo)
    (hP : s.P.length < 2 ^ 63) :
    read_uint16 s = Except.ok (hi * 256 + lo, { s with pc := s.pc + 1 }) := by
  have h1 := byte_at_lt hlo
  have h2 := byte_at_lt hhi
  have h3 := byte_at_length hlo
  have hmod : (s.pc + 1) % 18446744073709551616 = s.pc + 1 := Nat.mod_eq_of_lt (by omega)
  have hsh : (hi <<< 8) % 65536 = hi <<< 8 := by
    rw [Nat.shiftLeft_eq]; omega
  simp only [read_uint16, State.pc_inc, hhi, hlo, hmod, bind,
    Except.bind, pure, Except.pure, hsh, shl8_or hi lo h1]

theorem exec_icmp_pops {s : State} {x y : Int} {rest : List c0_value}
    (hS : s.S = c0_value.int y :: c0_value.int x :: rest) :
    pop_int s.pc_inc = Except.ok (y, { s.pc_inc with S := c0_value.int x :: rest }) ∧
    pop_int { s.pc_inc with S := c0_value.int x :: rest }
      = Except.ok (x, { s.pc_inc with S := rest }) := by
  simp [pop_int, c0v_pop, State.pc_inc, hS, val2int, bind, Except.bind, pure, Except.pure]

theorem cond_branch_eq {s : State} {op : Opcode} (h : opcode_at s = some op)
    (hP : s.P.length < 2 ^ 63) (rest : List c0_value) :
    (∀ hi lo, byte_at s.P (s.pc + 1) = Except.ok hi → byte_at s.P (s.pc + 2) = Except.ok lo →
      branch_taken { s.pc_inc with S := rest }
        = Except.ok { s with S := rest, pc := s.pc + (hi * 256 + lo) }) ∧
    State.pc_add { s.pc_inc with S := rest } 2 = { s with S := rest, pc := s.pc + 3 } := by
  have hlt := opcode_at_lt h
  have hinc : s.pc_inc = { s with pc := s.pc + 1 } := pc_inc_eq s (by omega)
  constructor
  · intro hi lo hhi hlo
    rw [hinc]
    rw [branch_taken_eq { s with pc := s.pc + 1, S := rest } s.pc rfl hhi hlo hP]
  · rw [hinc]
    simp only [State.pc_add, size_t_add]
    congr 1
    omega


/-- C3: with the integers `x` pushed first and `y` on top, each integer comparison
pops both and leaves the operand stack with exactly these two values removed;
IF_ICMPLT takes the branch (to the offset its two immediate bytes give) when
`x < y` and falls through to `pc + 3` otherwise, and likewise IF_ICMPLE for
`x ≤ y`, IF_ICMPGT for `x > y` and IF_ICMPGE for `x ≥ y`. -/
theorem C3_integer_comparisons (bc0 : bc0_file) (nt : NativeTable) (s : State) (x y : Int)
    (rest : List c0_value) (hP : s.P.length < 2 ^ 63)
    (hS : s.S = c0_value.int y :: c0_value.int x :: rest) :
    let taken : Prop := ∀ hi lo, byte_at s.P (s.pc + 1) = Except.ok hi →
      byte_at s.P (s.pc + 2) = Except.ok lo →
      step bc0 nt s = Outcome.running { s with S := rest, pc := s.pc + (hi * 256 + lo) }
    let not_taken : Prop :=
      step bc0 nt s = Outcome.running { s with S := rest, pc := s.pc + 3 }
    (opcode_at s = some Opcode.IF_ICMPLT → (x < y → taken) ∧ (¬ x < y → not_taken)) ∧
    (opcode_at s = some Opcode.IF_ICMPLE → (x ≤ y → taken) ∧ (¬ x ≤ y → not_taken)) ∧
    (opcode_at s = some Opcode.IF_ICMPGT → (x > y → taken) ∧ (¬ x > y → not_taken)) ∧
    (opcode_at s = some Opcode.IF_ICMPGE → (x ≥ y → taken) ∧ (¬ x ≥ y → not_taken)) := by
  intro taken not_taken
  obtain ⟨hp1, hp2⟩ := exec_icmp_pops hS
  refine ⟨?_, ?_, ?_, ?_⟩
  · intro h
    obtain ⟨hb, hf⟩ := cond_branch_eq h hP rest
    constructor
    · intro hc hi lo hhi hlo
      rw [step_eq_exec_op bc0 nt h]
      simp only [exec_op, exec_IF_ICMPLT, hp1, hp2, bind, Except.bind, pure, Except.pure]
      rw [if_pos (by omega), hb hi lo hhi hlo]
      rfl
    · intro hc
      show step bc0 nt s = _
      rw [step_eq_exec_op bc0 nt h]
      simp only [exec_op, exec_IF_ICMPLT, hp1, hp2, bind, Except.bind, pure, Except.pure]
      rw [if_neg (by omega), hf]
      rfl
  · intro h
    obtain ⟨hb, hf⟩ := cond_branch_eq h hP rest
    constructor
    · intro hc hi lo hhi hlo
      rw [step_eq_exec_op bc0 nt h]
      simp only [exec_op, exec_IF_ICMPLE, hp1, hp2, bind, Except.bind, pure, Except.pure]
      rw [if_pos (by omega), hb hi lo hhi hlo]
      rfl
    · intro hc
      show step bc0 nt s = _
      rw [step_eq_exec_op bc0 nt h]
      simp only [exec_op, exec_IF_ICMPLE, hp1, hp2, bind, Except.bind, pure, Except.pure]
      rw [if_neg (by omega), hf]
      rfl
  · intro h
    obtain ⟨hb, hf⟩ := cond_branch_eq h hP rest
    constructor
    · intro hc hi lo hhi hlo
      rw [step_eq_exec_op bc0 nt h]
      simp only [exec_op, exec_IF_ICMPGT, hp1, hp2, bind, Except.bind, pure, Except.pure]
      rw [if_pos (by omega), hb hi lo hhi hlo]
      rfl
    · intro hc
      show step bc0 nt s = _
      rw [step_eq_exec_op bc0 nt h]
      simp only [exec_op, exec_IF_ICMPGT, hp1, hp2, bind, Except.bind, pure, Except.pure]
      rw [if_neg (by omega), hf]
      rfl
  · intro h
    obtain ⟨hb, hf⟩ := cond_branch_eq h hP rest
    constructor
    · intro hc hi lo hhi hlo
      rw [step_eq_exec_op bc0 nt h]
      simp only [exec_op, exec_IF_ICMPGE, hp1, hp2, bind, Except.bind, pure, Except.pure]
      rw [if_pos (by omega), hb hi lo hhi hlo]
      rfl
    · intro hc
      show step bc0 nt s = _
      rw [step_eq_exec_op bc0 nt h]
      simp only [exec_op, exec_IF_ICMPGE, hp1, hp2, bind, Except.bind, pure, Except.pure]
      rw [if_neg (by omega), hf]
      rfl

/-- C3, witness: in scenario S2, -1 was pushed first and 1 is on top; IF_ICMPLT with the
immediate bytes `00 07` at offset 4 takes the branch, to offset 11, and leaves the
operand stack empty. -/
theorem C3_integer_comparisons_witness :
    step prog_S2 no_natives state_S2_icmplt
      = Outcome.running { state_S2_icmplt with S := [], pc := 11 } :=
  ((C3_integer_comparisons prog_S2 no_natives state_S2_icmplt (-1) 1 [] (by decide) rfl).1
    (by decide)).1 (by decide) 0 7 (by rfl) (by rfl)

/-- C4, evaluation at the failing input: the immediate bytes `FF FC` of the IF_CMPEQ at
offset 4 encode the signed 16-bit offset -4 (which GOTO decodes as -4), the two
popped values are equal so the branch is taken, and the next `pc` is
`4 + 65532 = 65536` instead of `4 + (-4) = 0`. -/
theorem C4_backward_branch_evaluation :
    int16_of_uint16 (0xFF * 256 + 0xFC) = -4 ∧
    run prog_backward_branch no_natives 2
      (State.mk [] [0x10, 0, 0x10, 0, 0x9F, 0xFF, 0xFC, 0xB0] 0 [] [] (initial_heap prog_backward_branch))
      = Outcome.running state_backward_branch ∧
    step prog_backward_branch no_natives state_backward_branch
      = Outcome.running { state_backward_branch with S := [], pc := 65536 } := by
  refine ⟨by decide, by decide, by decide⟩

theorem i16_decode (d : Int) (h1 : -32768 ≤ d) (h2 : d ≤ 32767) :
    int16_of_uint16 (i16_hi d * 256 + i16_lo d) = d := by
  unfold int16_of_uint16 i16_hi i16_lo
  split_ifs <;> omega

/-- C5: a GOTO at offset `p` whose two immediate bytes encode the signed 16-bit
big-endian offset `d`, with `p + d ≥ 0`, sets `pc` to `p + d`, counted from the
opcode byte, and changes nothing else: operand stack, locals, call stack, code
and heap are those of the state before. -/
theorem C5_goto (bc0 : bc0_file) (nt : NativeTable) (s : State) (d : Int)
    (hP : s.P.length < 2 ^ 63) (hop : opcode_at s = some Opcode.GOTO)
    (hd1 : -32768 ≤ d) (hd2 : d ≤ 32767)
    (hhi : byte_at s.P (s.pc + 1) = Except.ok (i16_hi d))
    (hlo : byte_at s.P (s.pc + 2) = Except.ok (i16_lo d))
    (hpos : 0 ≤ (s.pc : Int) + d) :
    step bc0 nt s = Outcome.running { s with pc := ((s.pc : Int) + d).toNat } := by
  have hlt := opcode_at_lt hop
  have hinc : s.pc_inc = { s with pc := s.pc + 1 } := pc_inc_eq s (by omega)
  rw [step_eq_exec_op bc0 nt hop]
  simp only [exec_op, exec_GOTO, hinc]
  rw [read_uint16_eq { s with pc := s.pc + 1 } hhi hlo hP]
  simp only [bind, Except.bind, pure, Except.pure, Outcome.of_exec, i16_decode d hd1 hd2,
    State.pc_add, size_t_add]
  congr 2
  omega

/-- C5, witness: the `GOTO -1` at offset 1 (immediate bytes `FF FF`) jumps backward
to offset 0 and leaves everything else as it was. -/
theorem C5_goto_witness :
    step (single_function [0x00, 0xA7, 0xFF, 0xFF]) no_natives state_goto_back
      = Outcome.running { state_goto_back with pc := 0 } := by
  have h := C5_goto (single_function [0x00, 0xA7, 0xFF, 0xFF]) no_natives state_goto_back (-1)
    (by decide) (by decide) (by decide) (by decide) (by rfl) (by rfl) (by decide)
  exact h


/-! ## Calls and returns -/

theorem pop_args_eq (args : List c0_value) :
    ∀ (A rest : List c0_value),
      pop_args args.length A (args.reverse ++ rest)
        = if args.length ≤ A.length then Except.ok (args ++ A.drop args.length, rest)
          else Except.error Fault.undefined := by
  induction args using List.reverseRecOn with
  | nil =>
    intro A rest
    simp [pop_args, pure, Except.pure]
  | append_singleton init last ih =>
    intro A rest
    simp only [List.length_append, List.length_singleton, List.reverse_append,
      List.reverse_singleton, List.singleton_append, List.cons_append, List.nil_append, pop_args]
    by_cases hlt : init.length < A.length
    · rw [if_pos hlt, ih, List.length_set, if_pos (by omega), if_pos (by omega)]
      have hdrop : (A.set init.length last).drop init.length = last :: A.drop (init.length + 1) := by
        rw [List.drop_eq_getElem_cons (by rw [List.length_set]; exact hlt),
          List.getElem_set_self, List.drop_set_of_lt _ _ (by omega)]
      rw [hdrop]
      simp
    · rw [if_neg hlt, if_neg (by omega)]
      rfl

theorem exec_INVOKESTATIC_eq (bc0 : bc0_file) {s : State} {hi lo : Nat} {f : function_info}
    (args rest : List c0_value) (hP : s.P.length < 2 ^ 63)
    (hop : opcode_at s = some Opcode.INVOKESTATIC)
    (hhi : byte_at s.P (s.pc + 1) = Except.ok hi) (hlo : byte_at s.P (s.pc + 2) = Except.ok lo)
    (hf : pool_get bc0.function_pool (int16_of_uint16 (hi * 256 + lo)) = Except.ok f)
    (hn : f.num_args = args.length) (hS : s.S = args.reverse ++ rest) :
    exec_INVOKESTATIC bc0 s =
      if args.length ≤ f.num_vars then
        Except.ok
          { S := [], P := f.code, pc := 0,
            V := args ++ List.replicate (f.num_vars - args.length) c0_zero,
            callStack := Saved.frame { S := rest, P := s.P, pc := s.pc + 3, V := s.V } :: s.callStack,
            heap := s.heap }
      else Except.error Fault.undefined := by
  have hlt := opcode_at_lt hop
  have h3 := byte_at_length hlo
  have hinc : s.pc_inc = { s with pc := s.pc + 1 } := pc_inc_eq s (by omega)
  have hinc2 : State.pc_inc { s with pc := s.pc + 1 + 1 } = { s with pc := s.pc + 3 } := by
    rw [pc_inc_eq _ (by simp only; omega)]
  simp only [exec_INVOKESTATIC, hinc]
  rw [read_uint16_eq { s with pc := s.pc + 1 } hhi hlo hP]
  simp only [bind, Except.bind, pure, Except.pure, hinc2, hf]
  simp only [hn, hS, pop_args_eq, List.length_replicate, List.drop_replicate]
  split_ifs <;> rfl

theorem exec_RETURN_frame {s : State} {r : c0_value} {F : frame_info} {cs : List Saved}
    (hS : s.S = [r]) (hcs : s.callStack = Saved.frame F :: cs) :
    exec_RETURN s = Outcome.running
      { S := r :: F.S, P := F.P, pc := F.pc, V := F.V, callStack := cs, heap := s.heap } := by
  simp [exec_RETURN, hS, hcs]

/-- C6: an INVOKESTATIC at offset `p` that selects a function `f` with
`num_args = n ≤ num_vars = m`, run on a caller stack whose top `n` values were
pushed in the order `a_0, .., a_(n-1)`, pushes on the call stack one frame with the
caller's operand stack without these `n` values, the caller's code, `pc = p + 3`
and the caller's locals; the new locals have length `m`, slot `i` holds `a_i` for
`i < n` and the all-zero value for `n ≤ i < m`; the new operand stack is empty, the
code is `f.code` and `pc` is 0. -/
theorem C6_invokestatic (bc0 : bc0_file) (nt : NativeTable) (s : State) (hi lo : Nat)
    (f : function_info) (args rest : List c0_value) (hP : s.P.length < 2 ^ 63)
    (hop : opcode_at s = some Opcode.INVOKESTATIC)
    (hhi : byte_at s.P (s.pc + 1) = Except.ok hi) (hlo : byte_at s.P (s.pc + 2) = Except.ok lo)
    (hf : pool_get bc0.function_pool (int16_of_uint16 (hi * 256 + lo)) = Except.ok f)
    (hn : f.num_args = args.length) (hm : f.num_args ≤ f.num_vars)
    (hS : s.S = args.reverse ++ rest) :
    ∃ V : List c0_value,
      step bc0 nt s = Outcome.running
        { S := [], P := f.code, pc := 0, V := V,
          callStack := Saved.frame { S := rest, P := s.P, pc := s.pc + 3, V := s.V } :: s.callStack,
          heap := s.heap } ∧
      V.length = f.num_vars ∧
      (∀ i, i < f.num_args → V[i]? = args[i]?) ∧
      (∀ i, f.num_args ≤ i → i < f.num_vars → V[i]? = some c0_zero) := by
  refine ⟨args ++ List.replicate (f.num_vars - args.length) c0_zero, ?_, ?_, ?_, ?_⟩
  · rw [step_eq_exec_op bc0 nt hop]
    simp only [exec_op, exec_INVOKESTATIC_eq bc0 args rest hP hop hhi hlo hf hn hS]
    rw [if_pos (by omega)]
    rfl
  · simp only [List.length_append, List.length_replicate]
    omega
  · intro i hi
    rw [List.getElem?_append_left (by omega)]
  · intro i h1 h2
    rw [List.getElem?_append_right (by omega), List.getElem?_replicate, if_pos (by omega)]

/-- C6, witness: in scenario S6 the INVOKESTATIC at offset 4 calls function 1 (two
arguments, two variables) with 10 pushed first and 32 on top: the frame saves the
empty stack, `pc = 7` and the caller's locals, and the callee starts with the
locals `[10, 32]`. -/
theorem C6_invokestatic_witness :
    ∃ V : List c0_value,
      step prog_S6 no_natives state_S6_call = Outcome.running
        { S := [], P := [0x15, 0, 0x15, 1, 0x60, 0xB0], pc := 0, V := V,
          callStack := [Saved.frame { S := [], P := state_S6_call.P, pc := 7, V := [] }],
          heap := state_S6_call.heap } ∧
      V.length = 2 ∧
      (∀ i, i < 2 → V[i]? = [c0_value.int 10, c0_value.int 32][i]?) ∧
      (∀ i, 2 ≤ i → i < 2 → V[i]? = some c0_zero) :=
  C6_invokestatic prog_S6 no_natives state_S6_call 0 1
    { num_args := 2, num_vars := 2, code := [0x15, 0, 0x15, 1, 0x60, 0xB0] }
    [c0_value.int 10, c0_value.int 32] [] (by decide) (by decide) (by rfl) (by rfl) (by rfl)
    (by rfl) (by decide) (by rfl)

/-- A RETURN that finds the frame of an INVOKESTATIC on top of the call stack, and
exactly `[r]` on the operand stack, restores the caller: its code, `pc = p + 3`,
its locals, the call stack of before the call, and its operand stack with the
arguments removed and `r` pushed. -/
theorem return_to_frame_on_top (bc0 : bc0_file) (nt : NativeTable) (s s1 s2 : State) (hi lo : Nat)
    (f : function_info) (args rest : List c0_value) (r : c0_value)
    (hP : s.P.length < 2 ^ 63) (hop : opcode_at s = some Opcode.INVOKESTATIC)
    (hhi : byte_at s.P (s.pc + 1) = Except.ok hi) (hlo : byte_at s.P (s.pc + 2) = Except.ok lo)
    (hf : pool_get bc0.function_pool (int16_of_uint16 (hi * 256 + lo)) = Except.ok f)
    (hn : f.num_args = args.length) (hS : s.S = args.reverse ++ rest)
    (hcall : step bc0 nt s = Outcome.running s1)
    (hret : opcode_at s2 = some Opcode.RETURN) (hframe : s2.callStack = s1.callStack)
    (hr : s2.S = [r]) :
    step bc0 nt s2 = Outcome.running
      { S := r :: rest, P := s.P, pc := s.pc + 3, V := s.V, callStack := s.callStack,
        heap := s2.heap } := by
  rw [step_eq_exec_op bc0 nt hop] at hcall
  simp only [exec_op, exec_INVOKESTATIC_eq bc0 args rest hP hop hhi hlo hf hn hS] at hcall
  split_ifs at hcall with hle
  · simp only [Outcome.of_exec, Outcome.running.injEq] at hcall
    subst hcall
    rw [step_eq_exec_op bc0 nt hret]
    simp only [exec_op]
    rw [exec_RETURN_frame hr hframe]
  · simp [Outcome.of_exec] at hcall

/-- Scenario S6: function 0 pushes 10 and 32 and calls function 1, whose RETURN finds
exactly 42 on its stack and the frame of the call on top of the call stack; after
that RETURN the outer frame is back at offset 7 with 42 alone on its stack, and
the program returns 42. -/
theorem return_to_frame_on_top_S6 :
    run prog_S6 no_natives 2
      (State.mk [] [0x10, 10, 0x10, 32, 0xB8, 0, 1, 0xB0] 0 [] [] (initial_heap prog_S6))
      = Outcome.running state_S6_call ∧
    run prog_S6 no_natives 3 state_S6_entry = Outcome.running state_S6_return ∧
    step prog_S6 no_natives state_S6_return = Outcome.running
      { S := [c0_value.int 42], P := [0x10, 10, 0x10, 32, 0xB8, 0, 1, 0xB0], pc := 7, V := [],
        callStack := [], heap := initial_heap prog_S6 } ∧
    execute prog_S6 no_natives 8 = Outcome.returned 42 :=
  ⟨by decide, by decide,
   return_to_frame_on_top prog_S6 no_natives state_S6_call state_S6_entry state_S6_return 0 1
     { num_args := 2, num_vars := 2, code := [0x15, 0, 0x15, 1, 0x60, 0xB0] }
     [c0_value.int 10, c0_value.int 32] [] (c0_value.int 42) (by decide) (by decide) (by rfl)
     (by rfl) (by rfl) (by rfl) (by rfl) (by decide) (by decide) (by rfl) (by rfl),
   by decide⟩

/-- C7, evaluation at the failing input: function 0 is `INVOKESTATIC 1, RETURN` and
function 1 is `ADDROF_NATIVE 0, NOP, INVOKEDYNAMIC, RETURN`.  The INVOKESTATIC at offset
0 calls function 1 (no arguments); the INVOKEDYNAMIC of function 1 pushes a frame
that its native branch never pops; so the RETURN of function 1, executed in the
frame of the call with exactly one value on the operand stack, finds that frame
(code of function 1, `pc = 4`, the operand stack and locals that the RETURN has
just freed) on top of the call stack and restores it, not the caller: the
state after the RETURN is not the caller's code with `pc = 3` and the value on
its stack. -/
theorem C7_stale_frame_evaluation :
    execute prog_call_dynamic_native no_natives 1 = Outcome.running state_callee_entry ∧
    run prog_call_dynamic_native no_natives 2 state_callee_entry
      = Outcome.running state_callee_return ∧
    opcode_at state_callee_return = some Opcode.RETURN ∧
    state_callee_return.S = [c0_value.int 0] ∧
    state_callee_return.callStack
      = Saved.alias [0xCB, 0, 0, 0x00, 0xB6, 0xB0] 4 :: state_callee_entry.callStack ∧
    step prog_call_dynamic_native no_natives state_callee_return
      = Outcome.stopped Fault.undefined ∧
    step prog_call_dynamic_native no_natives state_callee_return ≠ Outcome.running
      { S := [c0_value.int 0], P := [0xB8, 0, 1, 0xB0], pc := 3, V := [], callStack := [],
        heap := initial_heap prog_call_dynamic_native } := by
  refine ⟨by decide, by decide, by decide, by decide, by decide, by decide, by decide⟩

/-! ## Normal termination -/

theorem of_exec_ne_returned (e : Exec State) (r : Int) : Outcome.of_exec e ≠ Outcome.returned r := by
  cases e <;> simp [Outcome.of_exec]

theorem exec_op_returned {bc0 : bc0_file} {nt : NativeTable} {op : Opcode} {s : State} {r : Int}
    (h : exec_op bc0 nt op s = Outcome.returned r) : op = Opcode.RETURN := by
  cases op <;> first
    | rfl
    | (simp only [exec_op] at h; exact absurd h (of_exec_ne_returned _ r))

theorem exec_RETURN_returned {s : State} {r : Int} (h : exec_RETURN s = Outcome.returned r) :
    s.callStack = [] ∧ ∃ v, s.S = [v] ∧ val2int v = Except.ok r := by
  unfold exec_RETURN at h
  split at h
  · cases h
  · rename_i retval S hS
    split_ifs at h with hne
    simp only [ne_eq, not_not] at hne
    subst hne
    split at h
    · rename_i hcs
      split at h
      · rename_i r' hv
        simp only [Outcome.returned.injEq] at h
        subst h
        exact ⟨hcs, retval, hS, hv⟩
      · cases h
    · cases h
    · cases h

theorem step_returned {bc0 : bc0_file} {nt : NativeTable} {s : State} {r : Int}
    (h : step bc0 nt s = Outcome.returned r) :
    opcode_at s = some Opcode.RETURN ∧ s.callStack = [] ∧
      ∃ v, s.S = [v] ∧ val2int v = Except.ok r := by
  unfold step at h
  unfold opcode_at
  cases hb : byte_at s.P s.pc with
  | error f => rw [hb] at h; cases h
  | ok b =>
    rw [hb] at h
    simp only at h ⊢
    cases hd : decode b with
    | none => rw [hd] at h; cases h
    | some op =>
      rw [hd] at h
      simp only at h
      have hop := exec_op_returned h
      subst hop
      exact ⟨rfl, exec_RETURN_returned h⟩

theorem run_returned (bc0 : bc0_file) (nt : NativeTable) :
    ∀ (n : Nat) (s0 : State) (r : Int), run bc0 nt n s0 = Outcome.returned r →
      ∃ k s, k < n ∧ run bc0 nt k s0 = Outcome.running s ∧ step bc0 nt s = Outcome.returned r := by
  intro n
  induction n with
  | zero => intro s0 r h; cases h
  | succ n ih =>
    intro s0 r h
    cases hs : step bc0 nt s0 with
    | running s' =>
      simp only [run, hs] at h
      obtain ⟨k, s, hk, hrun, hstep⟩ := ih s' r h
      exact ⟨k + 1, s, by omega, by simp only [run, hs, hrun], hstep⟩
    | returned r' =>
      simp only [run, hs] at h
      exact ⟨0, s0, by omega, rfl, by rw [hs, h]⟩
    | stopped f =>
      simp only [run, hs] at h
      cases h

/-- C8: whenever `execute` terminates normally with the integer `r`, the last
instruction it executed is a RETURN, performed with an empty call stack and with
exactly one value `v` on the operand stack, and `r = val2int(v)`.  Moreover a
RETURN executed with an operand stack that does not hold exactly one value
yields neither a next state nor a result: it stops with a fault. -/
theorem C8_normal_termination (bc0 : bc0_file) (nt : NativeTable) :
    (∀ (n : Nat) (r : Int), execute bc0 nt n = Outcome.returned r →
      ∃ (s0 : State) (k : Nat) (s : State) (v : c0_value),
        initial_state bc0 = Except.ok s0 ∧ k < n ∧
        run bc0 nt k s0 = Outcome.running s ∧
        opcode_at s = some Opcode.RETURN ∧ s.callStack = [] ∧ s.S = [v] ∧
        val2int v = Except.ok r ∧ step bc0 nt s = Outcome.returned r) ∧
    (∀ s : State, opcode_at s = some Opcode.RETURN → s.S.length ≠ 1 →
      ∃ f, step bc0 nt s = Outcome.stopped f) := by
  constructor
  · intro n r h
    unfold execute at h
    cases hi : initial_state bc0 with
    | error f => rw [hi] at h; cases h
    | ok s0 =>
      rw [hi] at h
      simp only at h
      obtain ⟨k, s, hk, hrun, hstep⟩ := run_returned bc0 nt n s0 r h
      obtain ⟨hop, hcs, v, hS, hv⟩ := step_returned hstep
      exact ⟨s0, k, s, v, rfl, hk, hrun, hop, hcs, hS, hv, hstep⟩
  · intro s hop hlen
    rw [step_eq_exec_op bc0 nt hop]
    simp only [exec_op, exec_RETURN]
    cases hS : s.S with
    | nil => exact ⟨Fault.undefined, rfl⟩
    | cons v S =>
      simp only
      have hne : S ≠ [] := by
        intro hnil
        rw [hS, hnil] at hlen
        simp at hlen
      rw [if_pos hne]
      exact ⟨Fault.abort, rfl⟩

/-- C8, witness: scenario S1, `BIPUSH 3, BIPUSH 4, IADD, RETURN`, returns 7 within four
turns of the loop, and does so by a RETURN with the call stack empty and one
value on the operand stack. -/
theorem C8_normal_termination_witness :
    execute prog_S1 no_natives 4 = Outcome.returned 7 ∧
    ∃ (s0 : State) (k : Nat) (s : State) (v : c0_value),
      initial_state prog_S1 = Except.ok s0 ∧ k < 4 ∧
      run prog_S1 no_natives k s0 = Outcome.running s ∧
      opcode_at s = some Opcode.RETURN ∧ s.callStack = [] ∧ s.S = [v] ∧
      val2int v = Except.ok 7 ∧ step prog_S1 no_natives s = Outcome.returned 7 :=
  ⟨by decide, (C8_normal_termination prog_S1 no_natives).1 4 7 (by decide)⟩

/-- C9, evaluation at the failing input: the INVOKEDYNAMIC at offset 4 of function 0 pops
a pointer to function 1; the frame it pushes records `pc = 4`, the offset of the
INVOKEDYNAMIC itself, not 5; so when function 1 returns 5 the caller resumes at
offset 4, in front of the same INVOKEDYNAMIC, with 5 on its stack. -/
theorem C9_invokedynamic_static_evaluation :
    run prog_dynamic_static no_natives 1
      (State.mk [] [0xCA, 0, 1, 0x00, 0xB6, 0xB0] 0 [] [] (initial_heap prog_dynamic_static))
      = Outcome.running state_dynamic_static ∧
    step prog_dynamic_static no_natives state_dynamic_static = Outcome.running
      { S := [], P := [0x10, 5, 0xB0], pc := 0, V := [],
        callStack := [Saved.frame { S := [], P := [0xCA, 0, 1, 0x00, 0xB6, 0xB0], pc := 4, V := [] }],
        heap := initial_heap prog_dynamic_static } ∧
    run prog_dynamic_static no_natives 3 state_dynamic_static = Outcome.running
      { S := [c0_value.int 5], P := [0xCA, 0, 1, 0x00, 0xB6, 0xB0], pc := 4, V := [],
        callStack := [], heap := initial_heap prog_dynamic_static } ∧
    opcode_at { state_dynamic_static with S := [c0_value.int 5] } = some Opcode.INVOKEDYNAMIC := by
  refine ⟨by decide, by decide, by decide, by decide⟩

/-- C10, evaluation at the failing input: on the operand stack `[7] ++ [10, 32] ++ [f]`,
`f` a pointer to the native function 0 of two arguments, INVOKEDYNAMIC leaves a
call stack with one entry more, the frame it pushes before it looks at the
pointer, whereas INVOKENATIVE 0 on the stack `[7] ++ [10, 32]` leaves the call
stack as it was; the operand stacks agree, the host function being given the
arguments `[10, 32]` in both. -/
theorem C10_invokedynamic_native_evaluation :
    run prog_dynamic_native sub_natives 4
      (State.mk [] [0x10, 7, 0x10, 10, 0x10, 32, 0xCB, 0, 0, 0x00, 0xB6, 0xB0] 0 [] []
        (initial_heap prog_dynamic_native))
      = Outcome.running state_dynamic_native ∧
    step prog_dynamic_native sub_natives state_dynamic_native = Outcome.running
      { state_dynamic_native with
        S := [c0_value.int (-22), c0_value.int 7], pc := 11,
        callStack := [Saved.alias state_dynamic_native.P 10] } ∧
    step prog_dynamic_native sub_natives state_static_native = Outcome.running
      { state_static_native with
        S := [c0_value.int (-22), c0_value.int 7], pc := 9, callStack := [] } := by
  refine ⟨by decide, by decide, by decide⟩


/-! ## Runs that have stopped -/

theorem run_le (bc0 : bc0_file) (nt : NativeTable) :
    ∀ (k : Nat) (s : State) (o : Outcome), run bc0 nt k s = o → (∀ s', o ≠ Outcome.running s') →
      ∀ m, k ≤ m → run bc0 nt m s = o := by
  intro k
  induction k with
  | zero =>
    intro s o h hne
    exact absurd h.symm (hne s)
  | succ k ih =>
    intro s o h hne m hm
    obtain ⟨m', rfl⟩ : ∃ m', m = m' + 1 := ⟨m - 1, by omega⟩
    cases hs : step bc0 nt s with
    | running s' =>
      simp only [run, hs] at h ⊢
      exact ih s' o h hne m' (by omega)
    | returned r =>
      simp only [run, hs] at h ⊢
      exact h
    | stopped f =>
      simp only [run, hs] at h ⊢
      exact h

theorem execute_le (bc0 : bc0_file) (nt : NativeTable) (k : Nat) (o : Outcome)
    (h : execute bc0 nt k = o) (hne : ∀ s', o ≠ Outcome.running s') (m : Nat) (hm : k ≤ m) :
    execute bc0 nt m = o := by
  unfold execute at h ⊢
  cases hi : initial_state bc0 with
  | error f => rw [hi] at h; exact h
  | ok s0 =>
    rw [hi] at h
    exact run_le bc0 nt k s0 o h hne m hm

/-! ## The length of the instructions -/

/-- C11, evaluation at the failing input: in `BIPUSH 5, ADDROF_STATIC 0, POP, RETURN` the
ADDROF_STATIC at offset 2 leaves `pc = 6`, four bytes on, not `2 + 3 = 5`; the POP at
offset 5 is skipped and the RETURN at offset 6 finds two values, so that `execute`
stops instead of returning 5.  ADDROF_NATIVE, HASTAG, CHECKTAG and ADDTAG, run at
offset 0 without a fault, leave `pc = 4` as well. -/
theorem C11_addrof_static_evaluation :
    execute prog_addrof_pop no_natives 1 = Outcome.running state_addrof_static ∧
    step prog_addrof_pop no_natives state_addrof_static = Outcome.running
      { state_addrof_static with
        S := [c0_value.ptr (Ptr.fn false 0), c0_value.int 5], pc := 6 } ∧
    execute prog_addrof_pop no_natives 3 = Outcome.stopped Fault.abort ∧
    step prog_addrof_pop no_natives (start_of [0xCB, 0, 0, 0x00, 0xB0]) = Outcome.running
      { start_of [0xCB, 0, 0, 0x00, 0xB0] with S := [c0_value.ptr (Ptr.fn true 0)], pc := 4 } ∧
    step prog_addrof_pop no_natives
        { start_of [0xC1, 0, 7, 0x00, 0xB0] with S := [c0_value.ptr Ptr.null] }
      = Outcome.running { start_of [0xC1, 0, 7, 0x00, 0xB0] with S := [c0_value.int 0], pc := 4 } ∧
    step prog_addrof_pop no_natives
        { start_of [0xC0, 0, 7, 0x00, 0xB0] with
          S := [c0_value.tagged (Ptr.addr 5000) 7], heap := heap_tagged_cell }
      = Outcome.running
        { start_of [0xC0, 0, 7, 0x00, 0xB0] with
          S := [c0_value.tagged (Ptr.addr 5000) 7], heap := heap_tagged_cell, pc := 4 } ∧
    (∃ h : Heap,
      step prog_addrof_pop no_natives
          { start_of [0xC2, 0, 7, 0x00, 0xB0] with
            S := [c0_value.ptr (Ptr.addr 6000)], heap := heap_tagged_cell }
        = Outcome.running
          { start_of [0xC2, 0, 7, 0x00, 0xB0] with
            S := [c0_value.tagged (Ptr.addr 5000) 7], heap := h, pc := 4 }) := by
  refine ⟨by decide, by decide, by decide, by decide, by decide, by decide, ⟨_, by rfl⟩⟩

/-! ## Array indexing -/

theorem wrap32_of_int32 {x : Int} (h : is_int32 x) : wrap32 x = x := by
  unfold is_int32 INT_MIN INT_MAX at h
  unfold wrap32
  omega

theorem exec_AADDS_eq (s : State) (i : Int) (a : Ptr) (rest : List c0_value) (arr : c0_array)
    (hS : s.S = c0_value.int i :: c0_value.ptr a :: rest)
    (harr : a = Ptr.null ∨ s.heap.load_array a = Except.ok arr) :
    exec_AADDS s =
      if a = Ptr.null ∨ i < 0 ∨ i ≥ arr.count then Except.error Fault.memory_error
      else
        match ptr_add arr.elems (wrap32 (arr.elt_size * i)) with
        | Except.ok res => Except.ok { s with S := c0_value.ptr res :: rest, pc := (s.pc + 1) % 18446744073709551616 }
        | Except.error f => Except.error f := by
  have hp1 : pop_int s = Except.ok (i, { s with S := c0_value.ptr a :: rest }) := by
    simp [pop_int, c0v_pop, hS, val2int, bind, Except.bind, pure, Except.pure]
  have hp2 : pop_ptr { s with S := c0_value.ptr a :: rest } = Except.ok (a, { s with S := rest }) := by
    simp [pop_ptr, c0v_pop, val2ptr, bind, Except.bind, pure, Except.pure]
  simp only [exec_AADDS, hp1, hp2, bind, Except.bind]
  by_cases ha : a = Ptr.null
  · simp [ha, throw, throwThe, MonadExceptOf.throw]
  · have hl : s.heap.load_array a = Except.ok arr := harr.resolve_left ha
    simp only [ha, if_false, false_or, pure, Except.pure, hl]
    by_cases hc : i < 0 ∨ i ≥ arr.count
    · simp [hc, throw, throwThe, MonadExceptOf.throw]
    · simp only [hc, if_false]
      cases hpa : ptr_add arr.elems (wrap32 (arr.elt_size * i)) with
      | error f => rfl
      | ok res => rfl

/-- What AADDS does with an integer `i` on top of a pointer `a` that is null or points
to an array header whose elements are at the address `e`: it raises the memory
fault exactly when `a` is null or `i < 0` or `i ≥ a.count`, and otherwise pops both
and pushes the pointer `e + a.elt_size * i`, the product taken as an `int` and the
sum as a 64-bit address. -/
theorem aadds_step (bc0 : bc0_file) (nt : NativeTable) (s : State) (i : Int) (a : Ptr)
    (rest : List c0_value) (arr : c0_array) (e : Nat) (hP : s.P.length < 2 ^ 63)
    (hop : opcode_at s = some Opcode.AADDS)
    (hS : s.S = c0_value.int i :: c0_value.ptr a :: rest)
    (harr : a = Ptr.null ∨ s.heap.load_array a = Except.ok arr)
    (helems : arr.elems = Ptr.addr e) :
    (step bc0 nt s = Outcome.stopped Fault.memory_error ↔
      a = Ptr.null ∨ i < 0 ∨ i ≥ arr.count) ∧
    (¬ (a = Ptr.null ∨ i < 0 ∨ i ≥ arr.count) →
      step bc0 nt s = Outcome.running
        { s with
          S := c0_value.ptr (Ptr.of_address (size_t_add e (wrap32 (arr.elt_size * i)))) :: rest,
          pc := s.pc + 1 }) := by
  have hlt := opcode_at_lt hop
  have hmod : (s.pc + 1) % 18446744073709551616 = s.pc + 1 := Nat.mod_eq_of_lt (by omega)
  rw [step_eq_exec_op bc0 nt hop]
  simp only [exec_op, exec_AADDS_eq s i a rest arr hS harr]
  constructor
  · by_cases hc : a = Ptr.null ∨ i < 0 ∨ i ≥ arr.count
    · simp [hc, Outcome.of_exec]
    · simp [hc, helems, ptr_add, Outcome.of_exec, pure, Except.pure]
  · intro hc
    simp only [hc, if_false, helems, ptr_add, pure, Except.pure, hmod, Outcome.of_exec]

/-- Scenario S4, `BIPUSH 3, NEWARRAY 4, DUP, BIPUSH 3, AADDS`: the index 3 is out of
bounds for the length 3 and the AADDS raises the memory fault. -/
theorem aadds_step_S4 :
    execute prog_S4 no_natives 4 = Outcome.running state_S4_aadds ∧
    step prog_S4 no_natives state_S4_aadds = Outcome.stopped Fault.memory_error :=
  ⟨by decide,
   (aadds_step prog_S4 no_natives state_S4_aadds 3 (Ptr.addr 4097) [c0_value.ptr (Ptr.addr 4097)]
      { count := 3, elt_size := 4, elems := Ptr.addr 4113 } 4113 (by decide) (by decide) rfl
      (Or.inr (by rfl)) rfl).1.mpr (Or.inr (Or.inr (by decide)))⟩

/-- C12, evaluation at the failing input: `ILDC 0, NEWARRAY 127, ILDC 1, AADDS` with the
integer pool `[2^25, 2^25 - 1]` reaches the AADDS with the index `i = 2^25 - 1` on top
of a non-null pointer to an array with `count = 2^25`, `elt_size = 127` and elements
at the address 4113, so that no fault condition holds.  The `int` product
`127 * i = 4261412737` overflows to `-33554559`, and the AADDS pushes the pointer
`elems - 33554559` (in 64-bit pointer arithmetic), which lies before the element
region, and goes on; it does not push `elems + i * 127`. -/
theorem C12_index_overflow_evaluation :
    execute prog_big_array no_natives 3 = Outcome.running state_big_array_aadds ∧
    opcode_at state_big_array_aadds = some Opcode.AADDS ∧
    state_big_array_aadds.heap.load_array (Ptr.addr 4097)
      = Except.ok { count := 33554432, elt_size := 127, elems := Ptr.addr 4113 } ∧
    ¬ (Ptr.addr 4097 = Ptr.null ∨ (33554431 : Int) < 0 ∨ (33554431 : Int) ≥ 33554432) ∧
    (127 : Int) * 33554431 = 4261412737 ∧
    wrap32 (127 * 33554431) = -33554559 ∧
    step prog_big_array no_natives state_big_array_aadds = Outcome.running
      { state_big_array_aadds with
        S := [c0_value.ptr (Ptr.addr (size_t_add 4113 (-33554559)))], pc := 9 } ∧
    step prog_big_array no_natives state_big_array_aadds ≠ Outcome.running
      { state_big_array_aadds with
        S := [c0_value.ptr (Ptr.addr (4113 + 33554431 * 127))], pc := 9 } := by
  refine ⟨by decide, by decide, by rfl, by decide, by decide, by decide, by decide, by decide⟩

/-! ## Evaluations of the allocation and tag instructions -/

theorem exec_NEWARRAY_eq (s : State) (n : Int) (rest : List c0_value) (b : Nat)
    (hP : s.P.length < 2 ^ 63) (hb : byte_at s.P (s.pc + 1) = Except.ok b)
    (hS : s.S = c0_value.int n :: rest) (hn : 0 ≤ n) (hmax : n ≤ INT_MAX)
    (hmem : s.heap.brk + 16 + 8 * n.toNat < 18446744073709551616) :
    exec_NEWARRAY s = Except.ok
      { s with
        S := c0_value.ptr (Ptr.addr s.heap.brk) :: rest, pc := s.pc + 2,
        heap :=
          { brk := s.heap.brk + 16 + max (8 * n.toNat) 1,
            blocks := { base := s.heap.brk + 16, size := 8 * n.toNat, zeroed := true }
              :: { base := s.heap.brk, size := 16, zeroed := false } :: s.heap.blocks,
            cells := (s.heap.brk, Cell.array { count := n, elt_size := int8_of_byte b,
                                               elems := Ptr.addr (s.heap.brk + 16) })
              :: s.heap.cells } } := by
  have h3 := byte_at_length hb
  have hinc : s.pc_inc = { s with pc := s.pc + 1 } := pc_inc_eq s (by omega)
  have hsz : size_t_of_int n = n.toNat := by
    unfold size_t_of_int
    unfold INT_MAX at hmax
    omega
  have hp : pop_int { s with pc := s.pc + 1 }
      = Except.ok (n, { s with pc := s.pc + 1, S := rest }) := by
    simp [pop_int, c0v_pop, hS, val2int, bind, Except.bind, pure, Except.pure]
  simp only [exec_NEWARRAY, hinc, hb, hp, bind, Except.bind, pure, Except.pure, Heap.alloc,
    sizeof_c0_array, sizeof_ptr, hsz]
  rw [if_pos (by omega)]
  simp only [Nat.max_def, Nat.reduceLeDiff, if_false]
  rw [if_pos (by omega)]
  simp only [Heap.store, Heap.in_block, Cell.width, sizeof_c0_array, List.find?]
  have hd1 : decide (s.heap.brk + 16 ≤ s.heap.brk ∧
      s.heap.brk + 16 ≤ s.heap.brk + 16 + 8 * n.toNat) = false := by
    simp
  have hd2 : decide (s.heap.brk ≤ s.heap.brk ∧ s.heap.brk + 16 ≤ s.heap.brk + 16) = true := by
    simp
  simp only [hd1, hd2, pure, Except.pure, push_ptr, c0v_push, ptr2val]
  rw [pc_inc_eq _ (by simp only; omega)]

theorem exec_NEWARRAY_negative (s : State) (n : Int) (rest : List c0_value) (b : Nat)
    (hb : byte_at s.pc_inc.P s.pc_inc.pc = Except.ok b)
    (hS : s.S = c0_value.int n :: rest) (hn : n < 0) (hmin : INT_MIN ≤ n) :
    exec_NEWARRAY s = Except.error Fault.abort := by
  have hp : pop_int s.pc_inc = Except.ok (n, { s.pc_inc with S := rest }) := by
    simp [pop_int, c0v_pop, State.pc_inc, hS, val2int, bind, Except.bind, pure, Except.pure]
  have hsz : size_t_of_int n = (18446744073709551616 + n).toNat := by
    unfold size_t_of_int
    unfold INT_MIN at hmin
    omega
  simp only [exec_NEWARRAY, hb, hp, bind, Except.bind, pure, Except.pure]
  cases h1 : Heap.alloc s.pc_inc.heap sizeof_c0_array false with
  | error f =>
    unfold Heap.alloc at h1
    split_ifs at h1
    · cases h1
    · have h1' : (Except.error Fault.abort : Exec (Ptr × Heap)) = Except.error f := h1
      injection h1' with hf
      rw [← hf]
  | ok r =>
    have h2 : Heap.alloc r.2 (sizeof_ptr * size_t_of_int n) true = Except.error Fault.abort := by
      unfold Heap.alloc
      rw [if_neg]
      · rfl
      · rw [hsz]
        unfold sizeof_ptr
        unfold INT_MIN at hmin
        omega
    simp only [h2]

/-- C13, evaluation at the failing input: in `BIPUSH -1, NEWARRAY 4` the NEWARRAY pops the
count -1 and, having no test of the count, asks `xcalloc` for `8 * (2^64 - 1)` bytes,
which aborts: the outcome is `abort`, not the memory fault. -/
theorem C13_negative_count_evaluation :
    execute prog_negative_array no_natives 1 = Outcome.running state_negative_array ∧
    size_t_of_int (-1) = 18446744073709551615 ∧
    step prog_negative_array no_natives state_negative_array = Outcome.stopped Fault.abort ∧
    step prog_negative_array no_natives state_negative_array
      ≠ Outcome.stopped Fault.memory_error := by
  refine ⟨by decide, by decide, by decide, by decide⟩

/-- C14, evaluation at the failing input: in `BIPUSH 3, NEWARRAY 16, BIPUSH 2, AADDS` the
NEWARRAY creates an array with `count = 3` and `elt_size = 16` whose element region
has `8 * 3 = 24` bytes, not `3 * 16 = 48`; AADDS with the index 2 then pushes the
address `4113 + 32`, and the 16 bytes of that element lie past the end `4113 + 24`
of the region, inside no allocated region. -/
theorem C14_element_region_evaluation :
    execute prog_wide_array no_natives 2 = Outcome.running
      { S := [c0_value.ptr (Ptr.addr 4097)], P := [0x10, 3, 0xBC, 16, 0x10, 2, 0x63, 0xB0],
        pc := 4, V := [], callStack := [], heap := heap_wide_array } ∧
    heap_wide_array.load_array (Ptr.addr 4097)
      = Except.ok { count := 3, elt_size := 16, elems := Ptr.addr 4113 } ∧
    heap_wide_array.in_block 4113 1 = some { base := 4113, size := 24, zeroed := true } ∧
    execute prog_wide_array no_natives 4 = Outcome.running
      { S := [c0_value.ptr (Ptr.addr (4113 + 2 * 16))],
        P := [0x10, 3, 0xBC, 16, 0x10, 2, 0x63, 0xB0],
        pc := 7, V := [], callStack := [], heap := heap_wide_array } ∧
    4113 + 24 < 4113 + 3 * 16 ∧
    heap_wide_array.in_block (4113 + 2 * 16) 16 = none := by
  refine ⟨by decide, by rfl, by decide, by decide, by decide, by decide⟩

theorem null_tested_loads (s : State) (rest : List c0_value)
    (hS : s.S = c0_value.ptr Ptr.null :: rest) :
    exec_IMLOAD s = Except.error Fault.memory_error ∧
    exec_AMLOAD s = Except.error Fault.memory_error ∧
    exec_CMLOAD s = Except.error Fault.memory_error ∧
    exec_ARRAYLENGTH s = Except.error Fault.memory_error := by
  refine ⟨?_, ?_, ?_, ?_⟩ <;>
    simp [exec_IMLOAD, exec_AMLOAD, exec_CMLOAD, exec_ARRAYLENGTH, pop_ptr, c0v_pop, hS, val2ptr,
      bind, Except.bind, pure, Except.pure, throw, throwThe, MonadExceptOf.throw]

theorem null_tested_stores (s : State) (x : Int) (b : Ptr) (rest : List c0_value) :
    (s.S = c0_value.int x :: c0_value.ptr Ptr.null :: rest →
      exec_IMSTORE s = Except.error Fault.memory_error ∧
      exec_CMSTORE s = Except.error Fault.memory_error ∧
      exec_AADDS s = Except.error Fault.memory_error) ∧
    (s.S = c0_value.ptr b :: c0_value.ptr Ptr.null :: rest →
      exec_AMSTORE s = Except.error Fault.memory_error) := by
  constructor
  · intro hS
    refine ⟨?_, ?_, ?_⟩ <;>
      simp [exec_IMSTORE, exec_CMSTORE, exec_AADDS, pop_int, pop_ptr, c0v_pop, hS, val2int,
        val2ptr, bind, Except.bind, pure, Except.pure, throw, throwThe, MonadExceptOf.throw]
  · intro hS
    simp [exec_AMSTORE, pop_ptr, c0v_pop, hS, val2ptr, bind, Except.bind, pure, Except.pure,
      throw, throwThe, MonadExceptOf.throw]

theorem null_tested_immediates (s : State) (rest : List c0_value) (hi lo : Nat)
    (hP : s.P.length < 2 ^ 63) (hhi : byte_at s.P (s.pc + 1) = Except.ok hi)
    (hlo : byte_at s.P (s.pc + 2) = Except.ok lo)
    (hS : s.S = c0_value.ptr Ptr.null :: rest) :
    exec_AADDF s = Except.error Fault.memory_error ∧
    exec_CHECKTAG s = Except.error Fault.memory_error ∧
    exec_HASTAG s = Except.ok { s with S := c0_value.int 0 :: rest, pc := s.pc + 4 } := by
  have h3 := byte_at_length hlo
  have hinc : s.pc_inc = { s with pc := s.pc + 1 } := pc_inc_eq s (by omega)
  have hinc2 : State.pc_inc { s with pc := s.pc + 1 + 1 } = { s with pc := s.pc + 3 } := by
    rw [pc_inc_eq _ (by simp only; omega)]
  have hinc3 : State.pc_inc { s with S := c0_value.int 0 :: rest, pc := s.pc + 3 }
      = { s with S := c0_value.int 0 :: rest, pc := s.pc + 4 } := by
    rw [pc_inc_eq _ (by simp only; omega)]
  have hrd := read_uint16_eq { s with pc := s.pc + 1 } hhi hlo hP
  refine ⟨?_, ?_, ?_⟩
  · simp [exec_AADDF, hinc, hhi, pop_ptr, c0v_pop, hS, val2ptr, bind, Except.bind, pure,
      Except.pure, throw, throwThe, MonadExceptOf.throw]
  · simp only [exec_CHECKTAG, hinc, hrd, bind, Except.bind, hinc2]
    simp [pop_taggedptr, c0v_pop, hS, val2tagged_ptr, bind, Except.bind, pure, Except.pure,
      throw, throwThe, MonadExceptOf.throw]
  · simp only [exec_HASTAG, hinc, hrd, bind, Except.bind, hinc2]
    simp only [pop_taggedptr, c0v_pop, hS, val2tagged_ptr, bind, Except.bind, pure, Except.pure,
      if_true, push_int, c0v_push, int2val, hinc3]

/-- C15, evaluation at the failing input: in `ACONST_NULL, ADDTAG 7` the ADDTAG pops the
null pointer and reads a value through it without a test: the outcome is the
undefined behaviour of that read, not the memory fault.  IMLOAD on the same
stack makes the test and raises the memory fault. -/
theorem C15_addtag_null_evaluation :
    execute prog_null_addtag no_natives 1 = Outcome.running state_null_addtag ∧
    opcode_at state_null_addtag = some Opcode.ADDTAG ∧
    state_null_addtag.heap.load_value Ptr.null = Except.error Fault.undefined ∧
    step prog_null_addtag no_natives state_null_addtag = Outcome.stopped Fault.undefined ∧
    step prog_null_addtag no_natives { start_of [0x2E, 0xB0] with S := [c0_value.ptr Ptr.null] }
      = Outcome.stopped Fault.memory_error := by
  refine ⟨by decide, by decide, by rfl, by decide, by decide⟩

/-- C16, evaluation at the failing input: in scenario S5, `NEW 4, ADDTAG 7, CHECKTAG 7,
IMLOAD, RETURN`, the NEW allocates 4 bytes and the ADDTAG reads a `c0_value` of 16
bytes through the pointer to them, which is undefined; `execute` never returns 0. -/
theorem C16_scenario_S5_evaluation :
    execute prog_S5 no_natives 1 = Outcome.running state_S5_addtag ∧
    opcode_at state_S5_addtag = some Opcode.ADDTAG ∧
    state_S5_addtag.heap.in_block 4097 sizeof_int
      = some { base := 4097, size := 4, zeroed := false } ∧
    state_S5_addtag.heap.in_block 4097 sizeof_c0_value = none ∧
    step prog_S5 no_natives state_S5_addtag = Outcome.stopped Fault.undefined ∧
    ¬ ∃ n, execute prog_S5 no_natives n = Outcome.returned 0 := by
  refine ⟨by decide, by decide, by decide, by decide, by decide, ?_⟩
  rintro ⟨n, h⟩
  by_cases hn : n ≤ 1
  · interval_cases n <;> revert h <;> decide
  · have h2 : execute prog_S5 no_natives 2 = Outcome.stopped Fault.undefined := by decide
    rw [execute_le prog_S5 no_natives 2 _ h2 (by intro s' hc; cases hc) n (by omega)] at h
    cases h

/-! ## Division and remainder together -/

theorem tmod_natAbs (a b : Int) : (Int.tmod a b).natAbs = a.natAbs % b.natAbs := by
  rw [tmod_eq_trunc_rem]
  unfold trunc_rem
  rcases Int.lt_trichotomy a 0 with h | h | h
  · rw [Int.sign_eq_neg_one_of_neg h, neg_one_mul, Int.natAbs_neg, Int.natAbs_ofNat]
  · subst h; simp
  · rw [Int.sign_eq_one_of_pos h, one_mul, Int.natAbs_ofNat]

theorem tmod_sign (a b : Int) :
    Int.tmod a b = 0 ∨ (0 < Int.tmod a b ∧ 0 < a) ∨ (Int.tmod a b < 0 ∧ a < 0) := by
  have h := tmod_eq_trunc_rem a b
  unfold trunc_rem at h
  rcases Int.lt_trichotomy a 0 with h0 | h0 | h0
  · rw [Int.sign_eq_neg_one_of_neg h0] at h; omega
  · subst h0; left; simp
  · rw [Int.sign_eq_one_of_pos h0] at h; omega

/-- C17: for 32-bit integers `a` (pushed first) and `b` (on top) with `b ≠ 0` and not
(`a = INT_MIN` and `b = -1`), IDIV pushes `q` and IREM pushes `r` such that
`q * b + r = a`, as integers and in 32-bit arithmetic, `|r| < |b|`, and `r` is
zero or has the sign of `a`. -/
theorem C17_div_rem_identity (bc0 : bc0_file) (nt : NativeTable) (s1 s2 : State) (a b : Int)
    (rest1 rest2 : List c0_value) (ha : is_int32 a)
    (hP1 : s1.P.length < 2 ^ 63) (hP2 : s2.P.length < 2 ^ 63)
    (hop1 : opcode_at s1 = some Opcode.IDIV) (hop2 : opcode_at s2 = some Opcode.IREM)
    (hS1 : s1.S = c0_value.int b :: c0_value.int a :: rest1)
    (hS2 : s2.S = c0_value.int b :: c0_value.int a :: rest2)
    (hb0 : b ≠ 0) (hmin : ¬ (a = INT_MIN ∧ b = -1)) :
    ∃ q r : Int,
      step bc0 nt s1 = Outcome.running (after_binop s1 q rest1) ∧
      step bc0 nt s2 = Outcome.running (after_binop s2 r rest2) ∧
      q * b + r = a ∧ wrap32 (wrap32 (q * b) + r) = a ∧
      r.natAbs < b.natAbs ∧ (r = 0 ∨ (0 < r ∧ 0 < a) ∨ (r < 0 ∧ a < 0)) := by
  have hid : Int.tdiv a b * b + Int.tmod a b = a := Int.tdiv_add_tmod' a b
  have habs := tmod_natAbs a b
  have hsign := tmod_sign a b
  have hlt : a.natAbs % b.natAbs < b.natAbs := Nat.mod_lt _ (by omega)
  have hle : a.natAbs % b.natAbs ≤ a.natAbs := Nat.mod_le _ _
  have hqb : is_int32 (Int.tdiv a b * b) := by
    unfold is_int32 INT_MIN INT_MAX at *
    omega
  refine ⟨Int.tdiv a b, Int.tmod a b, ?_, ?_, hid, ?_, by omega, hsign⟩
  · rw [step_eq_exec_op bc0 nt hop1, ← after_binop_eq hop1 hP1]
    simp only [exec_op, exec_IDIV_eq hS1, Outcome.of_exec]
    rw [if_neg (by tauto)]
  · rw [step_eq_exec_op bc0 nt hop2, ← after_binop_eq hop2 hP2]
    simp only [exec_op, exec_IREM_eq hS2, Outcome.of_exec]
    rw [if_neg (by tauto)]
  · rw [wrap32_of_int32 hqb, hid, wrap32_of_int32 ha]

/-- C17, witness: for `a = -7` and `b = 2`, IDIV pushes -3 and IREM pushes -1, and
`-3 * 2 + -1 = -7`. -/
theorem C17_div_rem_identity_witness :
    step prog_div_rem no_natives state_idiv_example
      = Outcome.running (after_binop state_idiv_example (-3) []) ∧
    step prog_div_rem no_natives state_irem_example
      = Outcome.running (after_binop state_irem_example (-1) []) ∧
    ∃ q r : Int,
      step prog_div_rem no_natives state_idiv_example
        = Outcome.running (after_binop state_idiv_example q []) ∧
      step prog_div_rem no_natives state_irem_example
        = Outcome.running (after_binop state_irem_example r []) ∧
      q * 2 + r = -7 ∧ wrap32 (wrap32 (q * 2) + r) = -7 ∧
      r.natAbs < (2 : Int).natAbs ∧ (r = 0 ∨ (0 < r ∧ 0 < (-7 : Int)) ∨ (r < 0 ∧ (-7 : Int) < 0)) :=
  ⟨by decide, by decide,
   C17_div_rem_identity prog_div_rem no_natives state_idiv_example
     state_irem_example (-7) 2 [] [] (by decide) (by decide) (by decide)
     (by decide) (by decide) rfl rfl (by decide) (by decide)⟩

/-! ## The signed branch of scenario S2 -/

/-- C18, counterexample: in scenario S2 as written (branch offset 7), BIPUSH 0xFF pushes
-1 and the branch is taken, but it leads from offset 4 to offset 11, which is the
second byte of `BIPUSH 1` and is read as ACONST_NULL, not to the BIPUSH 1 at
offset 10; the RETURN that follows finds a pointer, and `execute` never returns 1. -/
theorem C18_scenario_S2_counterexample :
    execute prog_S2 no_natives 1 = Outcome.running
      { S := [c0_value.int (-1)],
        P := [0x10, 0xFF, 0x10, 0x01, 0xA1, 0x00, 0x07, 0x10, 0x00, 0xB0, 0x10, 0x01, 0xB0],
        pc := 2, V := [], callStack := [], heap := initial_heap prog_S2 } ∧
    execute prog_S2 no_natives 2 = Outcome.running state_S2_icmplt ∧
    execute prog_S2 no_natives 3 = Outcome.running { state_S2_icmplt with S := [], pc := 11 } ∧
    opcode_at { state_S2_icmplt with S := [], pc := 11 } = some Opcode.ACONST_NULL ∧
    execute prog_S2 no_natives 4
      = Outcome.running { state_S2_icmplt with S := [c0_value.ptr Ptr.null], pc := 12 } ∧
    ¬ ∃ n, execute prog_S2 no_natives n = Outcome.returned 1 := by
  refine ⟨by decide, by decide, by decide, by decide, by decide, ?_⟩
  rintro ⟨n, h⟩
  by_cases hn : n ≤ 4
  · interval_cases n <;> revert h <;> decide
  · have h5 : execute prog_S2 no_natives 5 = Outcome.stopped Fault.undefined := by decide
    rw [execute_le prog_S2 no_natives 5 _ h5 (by intro s' hc; cases hc) n (by omega)] at h
    cases h

/-- C18, amended: with the branch offset 6 (bytes `10 FF 10 01 A1 00 06 10 00 B0 10 01 B0`)
the program terminates normally and returns 1: BIPUSH 0xFF pushes -1, the signed
comparison `-1 < 1` takes the branch, and the branch lands on the instruction
BIPUSH 1 at offset 10. -/
theorem C18_scenario_S2_offset6 :
    execute prog_S2_offset6 no_natives 1 = Outcome.running
      { S := [c0_value.int (-1)],
        P := [0x10, 0xFF, 0x10, 0x01, 0xA1, 0x00, 0x06, 0x10, 0x00, 0xB0, 0x10, 0x01, 0xB0],
        pc := 2, V := [], callStack := [], heap := initial_heap prog_S2_offset6 } ∧
    execute prog_S2_offset6 no_natives 3 = Outcome.running
      { S := [],
        P := [0x10, 0xFF, 0x10, 0x01, 0xA1, 0x00, 0x06, 0x10, 0x00, 0xB0, 0x10, 0x01, 0xB0],
        pc := 10, V := [], callStack := [], heap := initial_heap prog_S2_offset6 } ∧
    opcode_at
      { S := [],
        P := [0x10, 0xFF, 0x10, 0x01, 0xA1, 0x00, 0x06, 0x10, 0x00, 0xB0, 0x10, 0x01, 0xB0],
        pc := 10, V := [], callStack := [], heap := initial_heap prog_S2_offset6 }
      = some Opcode.BIPUSH ∧
    execute prog_S2_offset6 no_natives 5 = Outcome.returned 1 := by
  refine ⟨by decide, by decide, by decide, by decide⟩

/-! ## Where the arguments of a call go -/

/-- C19, counterexample: in scenario S6 the value on top of the caller's operand stack
right before the INVOKESTATIC is 32, and local slot 0 of the callee holds 10, the
value below it; 32 is in slot 1. -/
theorem C19_top_of_stack_counterexample :
    state_S6_call.S[0]? = some (c0_value.int 32) ∧
    step prog_S6 no_natives state_S6_call = Outcome.running state_S6_entry ∧
    state_S6_entry.V[0]? = some (c0_value.int 10) ∧
    state_S6_entry.V[0]? ≠ state_S6_call.S[0]? ∧
    state_S6_entry.V[1]? = state_S6_call.S[0]? := by
  refine ⟨by decide, by decide, by decide, by decide, by decide⟩

/-- C19, amended: for every INVOKESTATIC of a function with `1 ≤ num_args ≤ num_vars`,
on a caller stack that holds the arguments, the value on top of the caller's
operand stack right before the arguments are popped is stored in local slot
`num_args - 1` of the callee, and local slot 0 holds the value that lies
`num_args - 1` places below the top, the argument pushed first. -/
theorem C19_argument_slots (bc0 : bc0_file) (nt : NativeTable) (s : State) (hi lo : Nat)
    (f : function_info) (hP : s.P.length < 2 ^ 63)
    (hop : opcode_at s = some Opcode.INVOKESTATIC)
    (hhi : byte_at s.P (s.pc + 1) = Except.ok hi) (hlo : byte_at s.P (s.pc + 2) = Except.ok lo)
    (hf : pool_get bc0.function_pool (int16_of_uint16 (hi * 256 + lo)) = Except.ok f)
    (h1 : 1 ≤ f.num_args) (hm : f.num_args ≤ f.num_vars) (hlen : f.num_args ≤ s.S.length) :
    ∃ s' : State, step bc0 nt s = Outcome.running s' ∧
      s'.V[f.num_args - 1]? = s.S[0]? ∧ s'.V[0]? = s.S[f.num_args - 1]? := by
  have hn : f.num_args = ((s.S.take f.num_args).reverse).length := by
    rw [List.length_reverse, List.length_take]; omega
  have hS : s.S = ((s.S.take f.num_args).reverse).reverse ++ s.S.drop f.num_args := by
    rw [List.reverse_reverse, List.take_append_drop]
  have hlt : (s.S.take f.num_args).length = f.num_args := by
    rw [List.length_take]; omega
  refine ⟨{ S := [], P := f.code, pc := 0,
            V := (s.S.take f.num_args).reverse
              ++ List.replicate (f.num_vars - ((s.S.take f.num_args).reverse).length) c0_zero,
            callStack := Saved.frame { S := s.S.drop f.num_args, P := s.P, pc := s.pc + 3,
                                       V := s.V } :: s.callStack,
            heap := s.heap }, ?_, ?_, ?_⟩
  · rw [step_eq_exec_op bc0 nt hop]
    simp only [exec_op, exec_INVOKESTATIC_eq bc0 _ _ hP hop hhi hlo hf hn hS]
    rw [if_pos (by rw [← hn]; exact hm)]
    rfl
  · simp only
    rw [List.getElem?_append_left (by rw [← hn]; omega),
      List.getElem?_reverse (by rw [hlt]; omega), hlt,
      List.getElem?_take_of_lt (by omega)]
    congr 1
    omega
  · simp only
    rw [List.getElem?_append_left (by rw [← hn]; omega),
      List.getElem?_reverse (by rw [hlt]; omega), hlt,
      List.getElem?_take_of_lt (by omega)]
    congr 1

/-- C19, amended, witness: in scenario S6 (two arguments) the top of the caller's stack
goes to slot 1 of the callee, and slot 0 holds the value one place below the top. -/
theorem C19_argument_slots_witness :
    ∃ s' : State, step prog_S6 no_natives state_S6_call = Outcome.running s' ∧
      s'.V[2 - 1]? = state_S6_call.S[0]? ∧ s'.V[0]? = state_S6_call.S[2 - 1]? :=
  C19_argument_slots prog_S6 no_natives state_S6_call 0 1
    { num_args := 2, num_vars := 2, code := [0x15, 0, 0x15, 1, 0x60, 0xB0] }
    (by decide) (by decide) (by rfl) (by rfl) (by rfl) (by decide) (by decide) (by decide)

/-! ## Pool indices -/

theorem int16_of_uint16_small (hi lo : Nat) (hhi : hi < 128) (hlo : lo < 256) :
    int16_of_uint16 (hi * 256 + lo) = ((hi * 256 + lo : Nat) : Int) := by
  unfold int16_of_uint16
  split_ifs <;> omega

theorem nth_replicate_append {α : Type} (n : Nat) (x y : α) :
    (List.replicate n x ++ [y])[n]? = some y := by
  rw [List.getElem?_append_right (by rw [List.length_replicate])]
  simp

theorem nth_replicate_last {α : Type} (n : Nat) (x : α) :
    (List.replicate (n + 1) x)[n]? = some x := by
  rw [List.getElem?_replicate, if_pos (by omega)]

theorem pool_get_replicate_append {α : Type} (n : Nat) (x y : α) :
    pool_get (List.replicate n x ++ [y]) (n : Int) = Except.ok y := by
  unfold pool_get
  rw [if_neg (by omega), Int.toNat_ofNat, nth_replicate_append]
  rfl

theorem exec_ILDC_eq (bc0 : bc0_file) (s : State) {hi lo : Nat} {x : Int}
    (hop : opcode_at s = some Opcode.ILDC) (hP : s.P.length < 2 ^ 63)
    (hhi : byte_at s.P (s.pc + 1) = Except.ok hi) (hlo : byte_at s.P (s.pc + 2) = Except.ok lo)
    (hx : pool_get bc0.int_pool ((hi * 256 + lo : Nat) : Int) = Except.ok x) :
    exec_ILDC bc0 s = Except.ok { s with S := c0_value.int x :: s.S, pc := s.pc + 3 } := by
  have hlt := opcode_at_lt hop
  have h1 := byte_at_lt hlo
  have h3 := byte_at_length hlo
  have hinc : s.pc_inc = { s with pc := s.pc + 1 } := pc_inc_eq s (by omega)
  have hinc2 : State.pc_inc { s with pc := s.pc + 1 } = { s with pc := s.pc + 2 } := by
    rw [pc_inc_eq _ (by simp only; omega)]
  simp only [exec_ILDC, hinc, hhi, bind, Except.bind, hinc2, hlo, shl8_or hi lo h1, hx,
    push_int, c0v_push, int2val, pure, Except.pure]
  rw [pc_inc_eq _ (by simp only; omega)]

/-- C20, evaluation at the failing input: for the immediate bytes `80 00` the unsigned
big-endian value is 32768, and the bytecode file has a function 32768 and a native
function 32768; INVOKESTATIC, INVOKENATIVE and INVOKEDYNAMIC (on the pointer that
`ADDROF_STATIC 80 00` pushes) cast the index to `int16_t`, which gives -32768, and
read the pool out of bounds, whereas ILDC with the same bytes reads entry 32768
of the integer pool. -/
theorem C20_signed_pool_index_evaluation :
    prog_many_functions.function_pool[0x80 * 256 + 0x00]?
      = some { num_args := 0, num_vars := 0, code := [0x10, 9, 0xB0] } ∧
    prog_many_functions.native_pool[0x80 * 256 + 0x00]?
      = some { num_args := 0, function_table_index := 0 } ∧
    int16_of_uint16 (0x80 * 256 + 0x00) = -32768 ∧
    step prog_many_functions no_natives (start_of [0xB8, 0x80, 0x00, 0xB0])
      = Outcome.stopped Fault.undefined ∧
    step prog_many_functions no_natives (start_of [0xB7, 0x80, 0x00, 0xB0])
      = Outcome.stopped Fault.undefined ∧
    step prog_many_functions no_natives (start_of [0xCA, 0x80, 0x00, 0x00, 0xB6, 0xB0])
      = Outcome.running
          { start_of [0xCA, 0x80, 0x00, 0x00, 0xB6, 0xB0] with
            S := [c0_value.ptr (Ptr.fn false 32768)], pc := 4 } ∧
    step prog_many_functions no_natives
        { start_of [0xCA, 0x80, 0x00, 0x00, 0xB6, 0xB0] with
          S := [c0_value.ptr (Ptr.fn false 32768)], pc := 4 }
      = Outcome.stopped Fault.undefined ∧
    step prog_many_functions no_natives (start_of [0x13, 0x80, 0x00, 0xB0])
      = Outcome.running { start_of [0x13, 0x80, 0x00, 0xB0] with S := [c0_value.int 9], pc := 3 } := by
  refine ⟨nth_replicate_append 32768 _ _, nth_replicate_last 32768 _, by decide,
    by decide, by decide, by decide, by decide, ?_⟩
  have hop : opcode_at (start_of [0x13, 0x80, 0x00, 0xB0]) = some Opcode.ILDC := by decide
  have hx : pool_get prog_many_functions.int_pool ((128 * 256 + 0 : Nat) : Int) = Except.ok 9 :=
    pool_get_replicate_append 32768 0 9
  rw [step_eq_exec_op prog_many_functions no_natives hop]
  simp only [exec_op]
  rw [@exec_ILDC_eq prog_many_functions (start_of [0x13, 0x80, 0x00, 0xB0]) 128 0 9 hop
    (by decide) (by rfl) (by rfl) hx]
  rfl

end C0VM
